import Mathlib

/-!
Verification of the hichi-chat-client synchronization core.

This file gives a shallow embedding, in Lean 4, of the client-side
synchronization engine of the repository (src/hooks/useChatSocket.ts,
src/types/chat.ts): the reducer over the in-memory snapshot, the
connection close/backoff logic, and the wire-frame handlers, and proves
the spec-level properties about them.

Modelling conventions:
- JavaScript objects used as string-keyed maps (messages, typingPeers,
  peerStatuses) are embedded as association lists `List (String × α)`
  with unique keys; object spread `{...m, [k]: v}` is `setA` (replace in
  place, else append, matching JS key-insertion order), `delete m[k]` is
  `eraseA`, and `for (const k in m)` mapping every value is `mapValsA`.
- `Array.prototype.sort((a, b) => a.timestamp - b.timestamp)` is the
  stable sort `List.mergeSort` with the boolean comparator
  `a.timestamp ≤ b.timestamp` (JS sort is stable per ES2019).
- Timestamps (JS `number` holding epoch milliseconds) are `Nat`.
- `null`/`undefined`-able fields are `Option`; the JS truthiness test
  `m.serverId && ...` is `serverId = some s` with `s ≠ ""`.
-/

namespace HichiChat

/-- Message delivery status, from src/types/chat.ts lines 3-8. -/
inductive MessageStatus where
  | sending
  | sent
  | delivered
  | read
  | failed
deriving DecidableEq

/-- Connection lifecycle status, from src/types/chat.ts lines 9-15. -/
inductive ConnectionStatus where
  | idle
  | connecting
  | connected
  | reconnecting
  | disconnected
  | auth_failed
deriving DecidableEq

/-- Peer presence, from src/types/chat.ts line 16. -/
inductive UserStatus where
  | online
  | offline
  | away
deriving DecidableEq

/-- In-memory chat message, from the ChatMessage interface in
src/types/chat.ts lines 42-53 (the optional pre-ack `id` field is unused
by the reducer and omitted). -/
structure ChatMessage where
  localId : String
  serverId : Option String := none
  chatId : String
  senderUsername : String
  receiverUsername : String
  text : String
  timestamp : Nat
  status : MessageStatus
deriving DecidableEq

/-- Inbound wire message, from the WireMessage interface in
src/hooks/useChatSocket.ts lines 246-254. -/
structure WireMessage where
  id : String
  chatId : String
  fromUser : String
  toUser : String
  text : String
  timestamp : Nat
deriving DecidableEq

/-- Lookup in a JS-object-as-map: value at the first matching key. -/
def lookupA {α : Type} : List (String × α) → String → Option α
  | [], _ => none
  | kv :: rest, k => if kv.1 = k then some kv.2 else lookupA rest k

/-- JS object assignment `{...m, [k]: v}` / `m[k] = v`: replace the value
at an existing key in place, otherwise append the new key last. -/
def setA {α : Type} : List (String × α) → String → α → List (String × α)
  | [], k, v => [(k, v)]
  | kv :: rest, k, v => if kv.1 = k then (k, v) :: rest else kv :: setA rest k v

/-- JS `delete m[k]`. -/
def eraseA {α : Type} (m : List (String × α)) (k : String) : List (String × α) :=
  m.filter (fun kv => decide (kv.1 ≠ k))

/-- JS `for (const k in m) m[k] = f(m[k])`. -/
def mapValsA {α : Type} (f : α → α) (m : List (String × α)) : List (String × α) :=
  m.map (fun kv => (kv.1, f kv.2))

/-- In-memory snapshot held by the reducer, from the SocketState
interface in src/hooks/useChatSocket.ts lines 35-42. -/
structure SocketState where
  connectionStatus : ConnectionStatus
  messages : List (String × List ChatMessage)
  typingPeers : List (String × Bool)
  peerStatuses : List (String × UserStatus)
  dbLoaded : Bool
  error : Option String
deriving DecidableEq

/-- Reducer action union, from the SocketAction type in
src/hooks/useChatSocket.ts lines 44-76.  The MESSAGE_UPDATED payload is
dispatched with the raw wire message (cast to ChatMessage at the call
site, line 359); the reducer reads only its id, chatId, and timestamp,
so the payload is embedded as a WireMessage. -/
inductive SocketAction where
  | DB_HYDRATED (payload : List ChatMessage)
  | CONNECTING
  | CONNECTED
  | RECONNECTING
  | DISCONNECTED
  | AUTH_FAILED (payload : String)
  | ERROR (payload : String)
  | MESSAGE_ADDED (payload : ChatMessage)
  | MESSAGE_UPDATED (localId : String) (message : WireMessage)
  | MESSAGES_BULK_ADD (payload : List ChatMessage)
  | MESSAGES_MARKED_READ (chatId : String) (readerUsername : String)
  | MESSAGES_READ_BY_PEER (chatId : String) (messageIds : List String)
  | TYPING_UPDATE (peerUsername : String) (isTyping : Bool)
  | PEER_STATUS (username : String) (status : UserStatus)
  | CLEAR_CHAT (chatId : String)
  | MESSAGES_UPDATED_STATUS (chatId : String) (messageIds : List String)
      (status : MessageStatus)
deriving DecidableEq

/-- Sort comparator `(a, b) => a.timestamp - b.timestamp` from
src/hooks/useChatSocket.ts line 84 (and lines 100, 162). -/
def byTimestamp (a b : ChatMessage) : Bool :=
  decide (a.timestamp ≤ b.timestamp)

/-- Ascending-timestamp ordering as a relation on messages. -/
def tsLE (a c : ChatMessage) : Prop :=
  a.timestamp ≤ c.timestamp

instance : DecidableRel tsLE :=
  fun a c => inferInstanceAs (Decidable (a.timestamp ≤ c.timestamp))

/-- Insert a message after every element whose timestamp is less than or
equal to its own (the insertion step of a stable sort). -/
def insertTS (m : ChatMessage) : List ChatMessage → List ChatMessage
  | [] => [m]
  | x :: xs => if byTimestamp x m then x :: insertTS m xs else m :: x :: xs

/-- Stable sort of one conversation bucket by ascending timestamp
(stable insertion sort, extensionally equal to JS
`Array.prototype.sort((a, b) => a.timestamp - b.timestamp)`, which is
stable per ES2019). -/
def sortBucket (b : List ChatMessage) : List ChatMessage :=
  b.foldl (fun acc m => insertTS m acc) []

/-- Test `existing.some((m) => m.localId === x)`. -/
def hasLocalId (b : List ChatMessage) (l : String) : Bool :=
  b.any (fun m => decide (m.localId = l))

/-- One step of the accumulation shared by the DB_HYDRATED and
MESSAGES_BULK_ADD reducer cases (src/hooks/useChatSocket.ts lines 92-97
and 155-160): append the message to its conversation bucket unless a
message with the same localId is already in that bucket. -/
def addIfAbsent (acc : List (String × List ChatMessage)) (msg : ChatMessage) :
    List (String × List ChatMessage) :=
  let existing := (lookupA acc msg.chatId).getD []
  if hasLocalId existing msg.localId then acc
  else setA acc msg.chatId (existing ++ [msg])

/-- Match test of the MESSAGES_UPDATED_STATUS case,
`(m.serverId && messageIds.includes(m.serverId)) || messageIds.includes(m.localId)`
(src/hooks/useChatSocket.ts line 198); the truthiness test on serverId
is `some s` with `s` nonempty. -/
def matchesIds (messageIds : List String) (m : ChatMessage) : Bool :=
  (match m.serverId with
   | some s => decide (s ≠ "") && decide (s ∈ messageIds)
   | none => false)
  || decide (m.localId ∈ messageIds)

/-- The synchronization reducer, translated case by case from
src/hooks/useChatSocket.ts lines 88-233. -/
def reducer (state : SocketState) (action : SocketAction) : SocketState :=
  match action with
  | .DB_HYDRATED payload =>
      { state with
        messages := mapValsA sortBucket (payload.foldl addIfAbsent state.messages),
        dbLoaded := true }
  | .CONNECTING => { state with connectionStatus := .connecting, error := none }
  | .CONNECTED => { state with connectionStatus := .connected, error := none }
  | .RECONNECTING => { state with connectionStatus := .reconnecting }
  | .DISCONNECTED => { state with connectionStatus := .disconnected }
  | .AUTH_FAILED payload =>
      { state with connectionStatus := .auth_failed, error := some payload }
  | .ERROR payload => { state with error := some payload }
  | .MESSAGE_UPDATED localId serverMsg =>
      match lookupA state.messages serverMsg.chatId with
      | none => state
      | some bucket =>
        { state with
          messages := setA state.messages serverMsg.chatId
            (bucket.map (fun m =>
              if m.localId = localId then
                { m with
                  serverId := some serverMsg.id,
                  status := .sent,
                  timestamp := serverMsg.timestamp }
              else m)) }
  | .MESSAGE_ADDED payload =>
      let existing := (lookupA state.messages payload.chatId).getD []
      if hasLocalId existing payload.localId then state
      else
        { state with
          messages := setA state.messages payload.chatId (existing ++ [payload]) }
  | .MESSAGES_BULK_ADD payload =>
      { state with
        messages := mapValsA sortBucket (payload.foldl addIfAbsent state.messages) }
  | .MESSAGES_MARKED_READ chatId readerUsername =>
      match lookupA state.messages chatId with
      | none => state
      | some bucket =>
        { state with
          messages := setA state.messages chatId
            (bucket.map (fun m =>
              if m.senderUsername ≠ readerUsername ∧ m.status ≠ .read then
                { m with status := .read }
              else m)) }
  | .MESSAGES_READ_BY_PEER chatId messageIds =>
      match lookupA state.messages chatId with
      | none => state
      | some bucket =>
        { state with
          messages := setA state.messages chatId
            (bucket.map (fun m =>
              if m.localId ∈ messageIds then { m with status := .read } else m)) }
  | .TYPING_UPDATE peerUsername isTyping =>
      { state with typingPeers := setA state.typingPeers peerUsername isTyping }
  | .PEER_STATUS username status =>
      { state with peerStatuses := setA state.peerStatuses username status }
  | .CLEAR_CHAT chatId =>
      { state with messages := eraseA state.messages chatId }
  | .MESSAGES_UPDATED_STATUS chatId messageIds status =>
      match lookupA state.messages chatId with
      | none => state
      | some bucket =>
        { state with
          messages := setA state.messages chatId
            (bucket.map (fun m =>
              if matchesIds messageIds m then { m with status := status } else m)) }

/-- Initial reducer state, from src/hooks/useChatSocket.ts lines 235-242. -/
def initialState : SocketState :=
  { connectionStatus := .idle
    messages := []
    typingPeers := []
    peerStatuses := []
    dbLoaded := false
    error := none }

/-- Fold a list of dispatched actions through the reducer. -/
def applyActions (st : SocketState) (acts : List SocketAction) : SocketState :=
  acts.foldl reducer st

/-- Conversation bucket for a chat id (empty when the key is absent). -/
def getBucket (st : SocketState) (cid : String) : List ChatMessage :=
  (lookupA st.messages cid).getD []

/-- First message carrying the given localId in the given conversation. -/
def getByLocal (st : SocketState) (cid l : String) : Option ChatMessage :=
  (getBucket st cid).find? (fun m => decide (m.localId = l))

/-- Status of the message carrying the given localId, when present. -/
def statusOf (st : SocketState) (cid l : String) : Option MessageStatus :=
  (getByLocal st cid l).map (fun m => m.status)

/-- Number of messages carrying the given localId in the conversation. -/
def countLocal (st : SocketState) (cid l : String) : Nat :=
  ((getBucket st cid).filter (fun m => decide (m.localId = l))).length

/-- Timestamps of a conversation bucket in display order. -/
def bucketTimestamps (st : SocketState) (cid : String) : List Nat :=
  (getBucket st cid).map (fun m => m.timestamp)

/-- Number of messages carrying the given localId summed over every
conversation bucket of the snapshot. -/
def countLocalAll (st : SocketState) (l : String) : Nat :=
  (st.messages.map
    (fun kv => (kv.2.filter (fun m => decide (m.localId = l))).length)).sum

/-- Every conversation bucket of a message map has pairwise-distinct
localIds. -/
def nodupBuckets (m : List (String × List ChatMessage)) : Prop :=
  ∀ kv ∈ m, List.Nodup (kv.2.map (fun msg => msg.localId))

/-- Shape of the action payloads the client code actually dispatches
(src/hooks/useChatSocket.ts): MESSAGE_ADDED carries status sending
(optimistic send, line 593) or delivered (new_message line 386,
pending_messages line 407); MESSAGES_BULK_ADD carries sent or delivered
(history, lines 427-429); MESSAGES_UPDATED_STATUS is dispatched only
with status read (messages_read handler, lines 443-449); DB_HYDRATED
replays rows the persistence layer wrote, whose statuses are only ever
sending, sent, delivered or read (upsert calls at lines 363-371, 389,
410, 432 and markChatRead in src/services/db.ts), never failed.  Every
other action is unconstrained. -/
def dispatchedShape (a : SocketAction) : Bool :=
  match a with
  | .DB_HYDRATED payload =>
      payload.all (fun m => decide (m.status ≠ MessageStatus.failed))
  | .MESSAGE_ADDED m =>
      decide (m.status = MessageStatus.sending)
      || decide (m.status = MessageStatus.delivered)
  | .MESSAGES_BULK_ADD payload =>
      payload.all (fun m =>
        decide (m.status = MessageStatus.sent)
        || decide (m.status = MessageStatus.delivered))
  | .MESSAGES_UPDATED_STATUS _ _ s => decide (s = MessageStatus.read)
  | _ => true

/-- No message anywhere in a message map carries status failed. -/
def noFailedBuckets (m : List (String × List ChatMessage)) : Prop :=
  ∀ kv ∈ m, ∀ x ∈ kv.2, x.status ≠ MessageStatus.failed

/-- State-independent dispatch-site constraints for a normal-flow action
relative to a tracked self-authored message with localId `l`
(src/hooks/useChatSocket.ts): any action (re)introducing a message with
that localId introduces it self-authored at sending (optimistic send,
lines 586-595) or at sending/sent (history self-entries line 427,
hydration of persisted self copies); MESSAGES_MARKED_READ is dispatched
only with the local user as reader (line 669), and
MESSAGES_UPDATED_STATUS only with status read (lines 443-449). -/
def normalFlowStatic (me l : String) (a : SocketAction) : Bool :=
  match a with
  | .DB_HYDRATED payload =>
      payload.all (fun m => !(decide (m.localId = l))
        || (decide (m.senderUsername = me)
            && (decide (m.status = MessageStatus.sending)
                || decide (m.status = MessageStatus.sent))))
  | .MESSAGE_ADDED m =>
      !(decide (m.localId = l))
        || (decide (m.senderUsername = me)
            && decide (m.status = MessageStatus.sending))
  | .MESSAGES_BULK_ADD payload =>
      payload.all (fun m => !(decide (m.localId = l))
        || (decide (m.senderUsername = me)
            && (decide (m.status = MessageStatus.sending)
                || decide (m.status = MessageStatus.sent))))
  | .MESSAGES_MARKED_READ _ readerUsername => decide (readerUsername = me)
  | .MESSAGES_UPDATED_STATUS _ _ s => decide (s = MessageStatus.read)
  | _ => true

/-- Whether an action is a read confirmation targeted at the tracked
message in conversation `cid` with localId `l`, in the given state: a
MESSAGES_UPDATED_STATUS whose identifier list matches the tracked
message (by serverId or localId, exactly as the reducer matches), or a
MESSAGES_READ_BY_PEER naming its localId. -/
def readConfFor (st : SocketState) (cid l : String) (a : SocketAction) : Bool :=
  match a with
  | .MESSAGES_UPDATED_STATUS cid2 ids _ =>
      decide (cid2 = cid)
        && (match getByLocal st cid l with
            | some m => matchesIds ids m
            | none => false)
  | .MESSAGES_READ_BY_PEER cid2 ids =>
      decide (cid2 = cid) && decide (l ∈ ids)
  | _ => false

/-- Normal-flow condition on a whole action sequence relative to the
tracked message: every action satisfies the dispatch-site shape and is
not a read confirmation for the tracked message in the state at which
it is applied. -/
def flowOK (me cid l : String) : SocketState → List SocketAction → Bool
  | _, [] => true
  | st, a :: rest =>
      normalFlowStatic me l a && !(readConfFor st cid l a)
        && flowOK me cid l (reducer st a) rest

/-- One admissible step of the tracked message's status under normal
flow: unchanged, removed (conversation cleared), created at sending or
re-introduced at sent, or advanced from sending to sent; in particular
the status never regresses along sending → sent → read. -/
def statusProgress (o1 o2 : Option MessageStatus) : Bool :=
  decide (o2 = o1) || decide (o2 = none)
  || (decide (o1 = none)
      && (decide (o2 = some MessageStatus.sending)
          || decide (o2 = some MessageStatus.sent)))
  || (decide (o1 = some MessageStatus.sending)
      && decide (o2 = some MessageStatus.sent))

/-- The tracked message's status takes only admissible steps along the
whole action sequence. -/
def progressAll (cid l : String) : SocketState → List SocketAction → Bool
  | _, [] => true
  | st, a :: rest =>
      statusProgress (statusOf st cid l) (statusOf (reducer st a) cid l)
        && progressAll cid l (reducer st a) rest

/-- Invariant of the tracked self-authored message: it is absent, or it
is authored by the local user and its status is sending or sent. -/
def selfInvB (me cid l : String) (st : SocketState) : Bool :=
  match getByLocal st cid l with
  | none => true
  | some m =>
      decide (m.senderUsername = me)
        && (decide (m.status = MessageStatus.sending)
            || decide (m.status = MessageStatus.sent))

-- ── Connection manager ──────────────────────────────────────────────────

/-- Retry ceiling, src/hooks/useChatSocket.ts line 26. -/
def MAX_RECONNECT_ATTEMPTS : Nat := 6

/-- Outcome of one call to scheduleReconnect: either a reconnect timer is
armed for `delayMs` milliseconds and the attempt counter advances to
`attemptsAfter`, or the manager gives up and surfaces `errorMsg`. -/
inductive ReconnectDecision where
  | retry (delayMs : Nat) (attemptsAfter : Nat)
  | giveUp (errorMsg : String)
deriving DecidableEq

/-- The scheduleReconnect callback, src/hooks/useChatSocket.ts lines
538-557, as a function of the current attempt counter
(reconnectAttemptsRef.current): at or beyond the ceiling it dispatches
the terminal give-up ERROR and arms nothing; otherwise it arms a timer
for `min(1000 * 2^attempts, 30000)` ms and increments the counter. -/
def scheduleReconnect (attempts : Nat) : ReconnectDecision :=
  if attempts ≥ MAX_RECONNECT_ATTEMPTS then
    .giveUp "Could not reconnect after multiple attempts."
  else
    .retry (min (1000 * 2 ^ attempts) 30000) (attempts + 1)

/-- Trace of `n` consecutive failed connection attempts starting from the
given attempt counter: the list of scheduled backoff delays in order,
and the give-up error message if the manager stopped retrying within
those `n` failures. -/
def runFailures : Nat → Nat → List Nat × Option String
  | 0, _ => ([], none)
  | n + 1, attempts =>
    match scheduleReconnect attempts with
    | .giveUp e => ([], some e)
    | .retry d a2 =>
      let rest := runFailures n a2
      (d :: rest.1, rest.2)

/-- The ws.onopen handler, src/hooks/useChatSocket.ts lines 326-336:
dispatches CONNECTED and resets the attempt counter to zero (the armed
heartbeat interval is outside the reducer state). -/
def onOpen (st : SocketState) : SocketState × Nat :=
  (reducer st .CONNECTED, 0)

/-- The ws.onclose handler, src/hooks/useChatSocket.ts lines 513-535, as
a function of the close code and the intentional-close flag: returns the
new snapshot and whether scheduleReconnect was invoked (no reconnect
path runs when the returned flag is false). -/
def onClose (st : SocketState) (code : Nat) (intentionalClose : Bool) :
    SocketState × Bool :=
  if code = 4001 ∨ code = 1006 then
    (reducer st (.AUTH_FAILED "Auth failed. Please sign in again."), false)
  else
    let st2 := reducer st .DISCONNECTED
    if code ≠ 1000 ∧ code ≠ 1001 ∧ intentionalClose = false then (st2, true)
    else (st2, false)

-- ── Outbound actions and inbound frame handlers ─────────────────────────

/-- Canonical direct-message conversation key, src/hooks/useChatSocket.ts
lines 29-31: the two lowercased identities joined in sorted order. -/
def dmChatId (a b : String) : String :=
  let x := a.toLower
  let y := b.toLower
  if x ≤ y then "dm:" ++ x ++ ":" ++ y else "dm:" ++ y ++ ":" ++ x

/-- Payload of the outbound send_message frame. -/
structure OutboundSend where
  toUser : String
  content : String
  localId : String
deriving DecidableEq

/-- Drop leading and trailing whitespace from a character list. -/
def trimChars (l : List Char) : List Char :=
  ((l.dropWhile Char.isWhitespace).reverse.dropWhile Char.isWhitespace).reverse

/-- Model of JS String.prototype.trim (`text.trim()` at
src/hooks/useChatSocket.ts line 582): remove leading and trailing
whitespace. -/
def trimString (s : String) : String :=
  ⟨trimChars s.data⟩

/-- The optimistic message built by sendMessage,
src/hooks/useChatSocket.ts lines 586-594. -/
def optimisticMessage (me receiver trimmed localId : String) (now : Nat) :
    ChatMessage :=
  { localId := localId
    serverId := none
    chatId := dmChatId me receiver
    senderUsername := me
    receiverUsername := receiver
    text := trimmed
    timestamp := now
    status := .sending }

/-- The sendMessage action, src/hooks/useChatSocket.ts lines 577-609, as
a function of the ambient conditions it reads: the logged-in username,
whether the transport handle exists and is OPEN, the fresh uuid, and the
current clock.  Returns the new snapshot and the frame sent, if any. -/
def sendMessage (myUsername : Option String) (wsOpen : Bool) (st : SocketState)
    (receiverUsername text freshLocalId : String) (now : Nat) :
    SocketState × Option OutboundSend :=
  match myUsername with
  | none => (st, none)
  | some me =>
    if wsOpen = false then (st, none)
    else
      let trimmed := trimString text
      if trimmed = "" then (st, none)
      else
        (reducer st (.MESSAGE_ADDED
            (optimisticMessage me receiverUsername trimmed freshLocalId now)),
         some { toUser := receiverUsername, content := trimmed, localId := freshLocalId })

/-- Conversion of an inbound wire message to the delivered ChatMessage
built by the new_message and pending_messages handlers,
src/hooks/useChatSocket.ts lines 379-387 and 400-408. -/
def newMessageToChat (me : String) (wm : WireMessage) : ChatMessage :=
  { localId := wm.id
    serverId := none
    chatId := wm.chatId
    senderUsername := wm.fromUser
    receiverUsername := me
    text := wm.text
    timestamp := wm.timestamp
    status := .delivered }

/-- The new_message frame handler, src/hooks/useChatSocket.ts lines
377-396: one MESSAGE_ADDED dispatch. -/
def onNewMessage (me : String) (st : SocketState) (wm : WireMessage) : SocketState :=
  reducer st (.MESSAGE_ADDED (newMessageToChat me wm))

/-- The pending_messages frame handler, src/hooks/useChatSocket.ts lines
399-415: one MESSAGE_ADDED dispatch per backlog message, in order. -/
def onPendingMessages (me : String) (st : SocketState) (wms : List WireMessage) :
    SocketState :=
  (wms.map (newMessageToChat me)).foldl (fun s m => reducer s (.MESSAGE_ADDED m)) st

/-- Conversion of one history entry, src/hooks/useChatSocket.ts lines
420-430: self-authored entries enter at sent, others at delivered. -/
def historyToChat (me chatId peer : String) (wm : WireMessage) : ChatMessage :=
  { localId := wm.id
    serverId := none
    chatId := chatId
    senderUsername := wm.fromUser
    receiverUsername := if wm.fromUser = me then peer else me
    text := wm.text
    timestamp := wm.timestamp
    status := if wm.fromUser = me then .sent else .delivered }

/-- The history frame handler, src/hooks/useChatSocket.ts lines 418-434:
one MESSAGES_BULK_ADD dispatch. -/
def onHistory (me : String) (st : SocketState) (chatId peer : String)
    (wms : List WireMessage) : SocketState :=
  reducer st (.MESSAGES_BULK_ADD (wms.map (historyToChat me chatId peer)))

/-- The message_sent frame handler, src/hooks/useChatSocket.ts lines
353-374: one MESSAGE_UPDATED dispatch with `data.localId ?? ""`. -/
def onMessageSent (st : SocketState) (frameLocalId : Option String)
    (wm : WireMessage) : SocketState :=
  reducer st (.MESSAGE_UPDATED (frameLocalId.getD "") wm)

/-- The messages_read frame handler, src/hooks/useChatSocket.ts lines
438-465: one MESSAGES_UPDATED_STATUS dispatch with status read. -/
def onMessagesRead (st : SocketState) (chatId : String)
    (messageIds : List String) : SocketState :=
  reducer st (.MESSAGES_UPDATED_STATUS chatId messageIds .read)

/-- Specification-side description of what C5 requires of one message
under a messages_read event: a matched message has exactly its status
replaced by read, regardless of what the status was, and an unmatched
message is left completely unchanged. -/
def readUpgradeRel (messageIds : List String) (mOld mNew : ChatMessage) : Prop :=
  (matchesIds messageIds mOld = true →
    mNew = { mOld with status := MessageStatus.read })
  ∧ (matchesIds messageIds mOld = false → mNew = mOld)

-- ── Association list lemmas ─────────────────────────────────────────────

theorem lookupA_setA_self {α : Type} (k : String) (v : α) :
    ∀ m : List (String × α), lookupA (setA m k v) k = some v := by
  intro m
  induction m with
  | nil => simp [setA, lookupA]
  | cons kv rest ih =>
    by_cases h : kv.1 = k
    · simp [setA, h, lookupA]
    · simp [setA, h, lookupA, ih]

theorem lookupA_setA_ne {α : Type} (k k' : String) (v : α) (hne : k' ≠ k) :
    ∀ m : List (String × α), lookupA (setA m k v) k' = lookupA m k' := by
  intro m
  have hkk : ¬ (k = k') := fun h => hne h.symm
  induction m with
  | nil => simp [setA, lookupA, hkk]
  | cons kv rest ih =>
    by_cases h : kv.1 = k
    · have h2 : ¬ kv.1 = k' := by rw [h]; exact hkk
      simp [setA, h, lookupA, hkk, h2]
    · simp only [setA, if_neg h, lookupA]
      by_cases h2 : kv.1 = k'
      · simp [h2]
      · simp [h2, ih]

theorem setA_lookup_self {α : Type} (k : String) (v : α) :
    ∀ m : List (String × α), lookupA m k = some v → setA m k v = m := by
  intro m
  induction m with
  | nil => intro h; simp [lookupA] at h
  | cons kv rest ih =>
    intro h
    by_cases hk : kv.1 = k
    · simp only [lookupA, if_pos hk] at h
      obtain ⟨k1, v1⟩ := kv
      simp only at hk
      subst hk
      cases h
      simp [setA]
    · simp only [lookupA, if_neg hk] at h
      simp [setA, hk, ih h]

theorem lookupA_mapValsA {α : Type} (f : α → α) (k : String) :
    ∀ m : List (String × α), lookupA (mapValsA f m) k = (lookupA m k).map f := by
  intro m
  induction m with
  | nil => simp [mapValsA, lookupA]
  | cons kv rest ih =>
    by_cases h : kv.1 = k
    · simp [mapValsA, lookupA, h]
    · simp only [mapValsA, List.map_cons, lookupA, if_neg h]
      simpa [mapValsA] using ih

theorem lookupA_eraseA {α : Type} (k k' : String) :
    ∀ m : List (String × α),
    lookupA (eraseA m k) k' = if k' = k then none else lookupA m k' := by
  intro m
  induction m with
  | nil => simp [eraseA, lookupA]
  | cons kv rest ih =>
    by_cases h1 : kv.1 = k
    · have he : eraseA (kv :: rest) k = eraseA rest k := by
        simp [eraseA, List.filter_cons, h1]
      rw [he, ih]
      by_cases h2 : k' = k
      · simp [h2]
      · have h3 : ¬ kv.1 = k' := by rw [h1]; exact fun hh => h2 hh.symm
        simp [h2, lookupA, h3]
    · have he : eraseA (kv :: rest) k = kv :: eraseA rest k := by
        simp [eraseA, List.filter_cons, h1]
      rw [he, lookupA, ih]
      by_cases h2 : kv.1 = k'
      · have h4 : ¬ k' = k := fun hh => h1 (by rw [h2, hh])
        simp [h2, lookupA, h4]
      · simp [h2, lookupA]

theorem state_messages_eta (st : SocketState)
    (m : List (String × List ChatMessage)) (h : m = st.messages) :
    { st with messages := m } = st := by
  obtain ⟨cs, ms, tp, ps, dl, er⟩ := st
  cases h
  rfl

-- ── Bucket lemmas ───────────────────────────────────────────────────────

theorem find?_localId_map (f : ChatMessage → ChatMessage)
    (hf : ∀ m, (f m).localId = m.localId) (l : String) :
    ∀ b : List ChatMessage,
    (b.map f).find? (fun m => decide (m.localId = l)) =
      (b.find? (fun m => decide (m.localId = l))).map f := by
  intro b
  induction b with
  | nil => simp
  | cons m rest ih =>
    by_cases h : m.localId = l
    · simp [List.find?_cons_of_pos, hf, h]
    · rw [List.map_cons, List.find?_cons_of_neg _ (by simp [hf, h]),
        List.find?_cons_of_neg _ (by simp [h]), ih]

theorem filter_localId_map (f : ChatMessage → ChatMessage)
    (hf : ∀ m, (f m).localId = m.localId) (l : String) :
    ∀ b : List ChatMessage,
    ((b.map f).filter (fun m => decide (m.localId = l))).length =
      (b.filter (fun m => decide (m.localId = l))).length := by
  intro b
  induction b with
  | nil => simp
  | cons m rest ih =>
    by_cases h : m.localId = l
    · simp only [List.map_cons, List.filter_cons]
      rw [if_pos (by simp [hf, h]), if_pos (by simp [h])]
      simpa using ih
    · simp only [List.map_cons, List.filter_cons]
      rw [if_neg (by simp [hf, h]), if_neg (by simp [h])]
      exact ih

theorem map_id_of_no_localId (l : String) (b : List ChatMessage)
    (f : ChatMessage → ChatMessage)
    (hf : ∀ m, m.localId ≠ l → f m = m)
    (habs : ∀ m ∈ b, m.localId ≠ l) : b.map f = b := by
  induction b with
  | nil => rfl
  | cons m rest ih =>
    rw [List.map_cons, hf m (habs m (by simp)),
      ih (fun x hx => habs x (by simp [hx]))]

theorem countLocal_zero_iff (st : SocketState) (cid l : String) :
    countLocal st cid l = 0 ↔ ∀ m ∈ getBucket st cid, m.localId ≠ l := by
  simp [countLocal]

theorem hasLocalId_false_of_count_zero (st : SocketState) (cid l : String)
    (h : countLocal st cid l = 0) : hasLocalId (getBucket st cid) l = false := by
  have h2 := (countLocal_zero_iff st cid l).mp h
  simp [hasLocalId]
  exact h2

-- ── Sorting lemmas ──────────────────────────────────────────────────────

theorem insertTS_perm (m : ChatMessage) :
    ∀ b : List ChatMessage, List.Perm (insertTS m b) (m :: b) := by
  intro b
  induction b with
  | nil => exact List.Perm.refl _
  | cons x xs ih =>
    by_cases h : byTimestamp x m = true
    · simp only [insertTS, if_pos h]
      exact (ih.cons x).trans (List.Perm.swap m x xs)
    · simp only [insertTS, if_neg h]
      exact List.Perm.refl _

theorem mem_insertTS {a m : ChatMessage} {b : List ChatMessage} :
    a ∈ insertTS m b ↔ a = m ∨ a ∈ b := by
  rw [(insertTS_perm m b).mem_iff, List.mem_cons]

theorem insertTS_pairwise (m : ChatMessage) :
    ∀ b : List ChatMessage, List.Pairwise tsLE b →
    List.Pairwise tsLE (insertTS m b) := by
  intro b
  induction b with
  | nil => intro _; simp [insertTS, List.pairwise_cons]
  | cons x xs ih =>
    intro h
    rw [List.pairwise_cons] at h
    obtain ⟨hx, hxs⟩ := h
    by_cases hc : byTimestamp x m = true
    · simp only [insertTS, if_pos hc]
      rw [List.pairwise_cons]
      refine ⟨?_, ih hxs⟩
      intro y hy
      rw [mem_insertTS] at hy
      rcases hy with hy | hy
      · subst hy
        exact of_decide_eq_true hc
      · exact hx y hy
    · simp only [insertTS, if_neg hc]
      have hmx : tsLE m x := by
        have : ¬ (x.timestamp ≤ m.timestamp) := fun hh => hc (decide_eq_true hh)
        exact Nat.le_of_lt (Nat.lt_of_not_le this)
      rw [List.pairwise_cons]
      refine ⟨?_, ?_⟩
      · intro y hy
        rcases List.mem_cons.mp hy with hy | hy
        · subst hy; exact hmx
        · exact Nat.le_trans hmx (hx y hy)
      · rw [List.pairwise_cons]
        exact ⟨hx, hxs⟩

theorem foldl_insertTS_pairwise :
    ∀ (b acc : List ChatMessage), List.Pairwise tsLE acc →
    List.Pairwise tsLE (b.foldl (fun a m => insertTS m a) acc) := by
  intro b
  induction b with
  | nil => intro acc h; exact h
  | cons m bs ih =>
    intro acc h
    exact ih (insertTS m acc) (insertTS_pairwise m acc h)

theorem sortBucket_pairwise (b : List ChatMessage) :
    List.Pairwise tsLE (sortBucket b) :=
  foldl_insertTS_pairwise b [] List.Pairwise.nil

theorem foldl_insertTS_perm :
    ∀ (b acc : List ChatMessage),
    List.Perm (b.foldl (fun a m => insertTS m a) acc) (acc ++ b) := by
  intro b
  induction b with
  | nil => intro acc; simp
  | cons m bs ih =>
    intro acc
    have h1 : List.Perm (bs.foldl (fun a m => insertTS m a) (insertTS m acc))
        (insertTS m acc ++ bs) := ih (insertTS m acc)
    have h2 : List.Perm (insertTS m acc ++ bs) ((m :: acc) ++ bs) :=
      (insertTS_perm m acc).append_right bs
    have h3 : List.Perm (m :: (acc ++ bs)) (acc ++ m :: bs) :=
      List.perm_middle.symm
    exact h1.trans (h2.trans h3)

theorem sortBucket_perm (b : List ChatMessage) :
    List.Perm (sortBucket b) b := by
  simpa using foldl_insertTS_perm b []

theorem insertTS_of_all_le (m : ChatMessage) :
    ∀ acc : List ChatMessage, (∀ x ∈ acc, byTimestamp x m = true) →
    insertTS m acc = acc ++ [m] := by
  intro acc
  induction acc with
  | nil => intro _; rfl
  | cons x xs ih =>
    intro h
    simp only [insertTS, if_pos (h x (by simp))]
    rw [ih (fun y hy => h y (by simp [hy]))]
    rfl

theorem foldl_insertTS_of_sorted :
    ∀ (b acc : List ChatMessage), List.Pairwise tsLE (acc ++ b) →
    b.foldl (fun a m => insertTS m a) acc = acc ++ b := by
  intro b
  induction b with
  | nil => intro acc _; simp
  | cons m bs ih =>
    intro acc h
    have hall : ∀ x ∈ acc, byTimestamp x m = true := by
      intro x hx
      have := (List.pairwise_append.mp h).2.2 x hx m (by simp)
      exact decide_eq_true this
    have hstep : (m :: bs).foldl (fun a m => insertTS m a) acc
        = bs.foldl (fun a m => insertTS m a) (acc ++ [m]) := by
      show bs.foldl (fun a m => insertTS m a) (insertTS m acc)
        = bs.foldl (fun a m => insertTS m a) (acc ++ [m])
      rw [insertTS_of_all_le m acc hall]
    rw [hstep, ih (acc ++ [m]) (by simpa using h)]
    simp

theorem sortBucket_of_sorted (b : List ChatMessage)
    (h : List.Pairwise tsLE b) : sortBucket b = b := by
  simpa using foldl_insertTS_of_sorted b [] (by simpa using h)

-- ── C1: backoff policy ──────────────────────────────────────────────────

/-- C1: starting from a retry counter of zero, six consecutive failed
connection attempts schedule exactly the delays 1000, 2000, 4000, 8000,
16000, 30000 ms; a seventh consecutive failure schedules nothing and
surfaces the distinct give-up error instead; and a successful open
resets the counter to zero (and marks the session connected). -/
theorem backoff_policy_c1 :
    runFailures 6 0 = ([1000, 2000, 4000, 8000, 16000, 30000], none)
    ∧ runFailures 7 0 = ([1000, 2000, 4000, 8000, 16000, 30000],
        some "Could not reconnect after multiple attempts.")
    ∧ scheduleReconnect 6 = .giveUp "Could not reconnect after multiple attempts."
    ∧ ∀ st : SocketState, (onOpen st).2 = 0
        ∧ (onOpen st).1.connectionStatus = .connected := by
  refine ⟨by decide, by decide, by decide, fun st => ⟨rfl, rfl⟩⟩

-- ── C7: close-code handling ─────────────────────────────────────────────

/-- C7: a transport close with code 4001 or 1006 moves the connection
status directly to auth_failed and does not invoke the reconnect
scheduler (so no backoff timer is armed); an abnormal close with any
other code besides 1000 and 1001 that is not self-initiated invokes the
reconnect scheduler. -/
theorem close_codes_c7 (st : SocketState) (code : Nat) (intentional : Bool) :
    ((code = 4001 ∨ code = 1006) →
      (onClose st code intentional).1.connectionStatus = .auth_failed
      ∧ (onClose st code intentional).2 = false)
    ∧ (code ≠ 4001 → code ≠ 1006 → code ≠ 1000 → code ≠ 1001 →
      intentional = false →
      (onClose st code intentional).1.connectionStatus = .disconnected
      ∧ (onClose st code intentional).2 = true) := by
  constructor
  · intro h
    rw [onClose, if_pos h]
    exact ⟨rfl, rfl⟩
  · intro h1 h2 h3 h4 h5
    rw [onClose, if_neg (by tauto), if_pos ⟨h3, h4, h5⟩]
    exact ⟨rfl, rfl⟩

/-- Witness for C7 at the concrete close codes 4001 (auth failure) and
1005 (abnormal, retried). -/
theorem close_codes_c7_witness :
    (onClose initialState 4001 false).1.connectionStatus = .auth_failed
    ∧ (onClose initialState 1005 false).2 = true :=
  ⟨((close_codes_c7 initialState 4001 false).1 (Or.inl rfl)).1,
   ((close_codes_c7 initialState 1005 false).2
      (by decide) (by decide) (by decide) (by decide) rfl).2⟩

-- ── C10: sendMessage guards and optimistic append ───────────────────────

/-- C10: a sendMessage call whose text trims to the empty string, or made
while the transport is absent or not open, leaves the snapshot unchanged
and sends no frame; otherwise the optimistic message appended to the
conversation bucket carries the trimmed text, status sending, and the
freshly generated localId, other conversations are untouched, and the
outbound frame carries the trimmed content and that localId. -/
theorem send_message_c10 (me : String) (wsOpen : Bool) (st : SocketState)
    (receiver text freshLocalId : String) (now : Nat) :
    ((trimString text = "" ∨ wsOpen = false) →
      sendMessage (some me) wsOpen st receiver text freshLocalId now = (st, none))
    ∧ (wsOpen = true → trimString text ≠ "" →
      countLocal st (dmChatId me receiver) freshLocalId = 0 →
      getBucket (sendMessage (some me) wsOpen st receiver text freshLocalId now).1
          (dmChatId me receiver)
        = getBucket st (dmChatId me receiver) ++
          [optimisticMessage me receiver (trimString text) freshLocalId now]
      ∧ (optimisticMessage me receiver (trimString text) freshLocalId now).text
          = trimString text
      ∧ (optimisticMessage me receiver (trimString text) freshLocalId now).status
          = .sending
      ∧ (optimisticMessage me receiver (trimString text) freshLocalId now).localId
          = freshLocalId
      ∧ (∀ cid, cid ≠ dmChatId me receiver →
          lookupA (sendMessage (some me) wsOpen st receiver text
              freshLocalId now).1.messages cid
            = lookupA st.messages cid)
      ∧ (sendMessage (some me) wsOpen st receiver text freshLocalId now).2
        = some { toUser := receiver, content := trimString text,
                 localId := freshLocalId }) := by
  constructor
  · intro h
    rcases h with h | h
    · cases wsOpen
      · simp [sendMessage]
      · simp [sendMessage, h]
    · simp [sendMessage, h]
  · intro hw ht hc
    subst hw
    have hfal : hasLocalId (getBucket st (dmChatId me receiver)) freshLocalId = false :=
      hasLocalId_false_of_count_zero st (dmChatId me receiver) freshLocalId hc
    simp only [getBucket] at hfal
    have hred : sendMessage (some me) true st receiver text freshLocalId now
        = ({ st with
              messages := setA st.messages (dmChatId me receiver)
                  ((lookupA st.messages (dmChatId me receiver)).getD [] ++
                    [optimisticMessage me receiver (trimString text) freshLocalId now]) },
           some { toUser := receiver, content := trimString text,
                  localId := freshLocalId }) := by
      simp only [sendMessage]
      rw [if_neg (by simp)]
      rw [if_neg ht]
      simp only [reducer, optimisticMessage, hfal]
      simp
    rw [hred]
    refine ⟨?_, rfl, rfl, rfl, ?_, rfl⟩
    · simp only [getBucket, lookupA_setA_self, Option.getD_some]
    · intro cid hcid
      exact lookupA_setA_ne (dmChatId me receiver) cid _ hcid st.messages

/-- Witness for C10: a whitespace-only text is silently discarded, and a
concrete send of text with surrounding spaces appends the trimmed
optimistic message. -/
theorem send_message_c10_witness :
    sendMessage (some "alice") true initialState "bob" "   " "u1" 5
      = (initialState, none)
    ∧ getBucket (sendMessage (some "alice") true initialState "bob" " hi " "u1" 5).1
        (dmChatId "alice" "bob")
      = [optimisticMessage "alice" "bob" "hi" "u1" 5] := by
  constructor
  · exact (send_message_c10 "alice" true initialState "bob" "   " "u1" 5).1
      (Or.inl (by decide))
  · have h := ((send_message_c10 "alice" true initialState "bob" " hi " "u1" 5).2
      rfl (by decide) (by decide)).1
    rw [h]
    have htr : trimString " hi " = "hi" := by decide
    rw [htr]
    simp [getBucket, initialState, lookupA]

-- ── C6: message_sent acknowledgment ─────────────────────────────────────

/-- C6: after an optimistic send creates a message with status sending
and a fresh localId, receiving message_sent for that localId yields
exactly one message with that localId in the conversation, carrying
serverId from the frame's message id, status sent, and the timestamp
overwritten by the server-supplied value; and a message_sent whose
localId matches no message of the target conversation leaves the state
unchanged. -/
theorem message_sent_ack_c6 (st : SocketState) (opt : ChatMessage) (wm : WireMessage)
    (hcid : opt.chatId = wm.chatId)
    (hstat : opt.status = .sending)
    (hfresh : countLocal st wm.chatId opt.localId = 0) :
    (countLocal
        (reducer (reducer st (.MESSAGE_ADDED opt)) (.MESSAGE_UPDATED opt.localId wm))
        wm.chatId opt.localId = 1
      ∧ getByLocal
          (reducer (reducer st (.MESSAGE_ADDED opt)) (.MESSAGE_UPDATED opt.localId wm))
          wm.chatId opt.localId
        = some { opt with
            serverId := some wm.id, status := .sent, timestamp := wm.timestamp })
    ∧ (∀ l, countLocal st wm.chatId l = 0 →
        reducer st (.MESSAGE_UPDATED l wm) = st) := by
  have hdrop : ∀ l, countLocal st wm.chatId l = 0 →
      reducer st (.MESSAGE_UPDATED l wm) = st := by
    intro l hl
    have hb : ∀ m ∈ getBucket st wm.chatId, m.localId ≠ l :=
      (countLocal_zero_iff st wm.chatId l).mp hl
    cases hlk : lookupA st.messages wm.chatId with
    | none => simp only [reducer, hlk]
    | some bucket =>
      have hb2 : ∀ m ∈ bucket, m.localId ≠ l := by
        intro m hm
        exact hb m (by simp [getBucket, hlk]; exact hm)
      simp only [reducer, hlk]
      rw [map_id_of_no_localId l bucket _ (fun m hm => by rw [if_neg hm]) hb2]
      rw [setA_lookup_self wm.chatId bucket st.messages hlk]
  refine ⟨?_, hdrop⟩
  have hb : ∀ m ∈ getBucket st wm.chatId, m.localId ≠ opt.localId :=
    (countLocal_zero_iff st wm.chatId opt.localId).mp hfresh
  have hfal : hasLocalId (getBucket st wm.chatId) opt.localId = false :=
    hasLocalId_false_of_count_zero st wm.chatId opt.localId hfresh
  simp only [getBucket] at hfal
  have hst1 : (reducer st (.MESSAGE_ADDED opt)).messages
      = setA st.messages wm.chatId
          ((lookupA st.messages wm.chatId).getD [] ++ [opt]) := by
    simp only [reducer, hcid, hfal]
    simp
  have hl1 : lookupA (reducer st (.MESSAGE_ADDED opt)).messages wm.chatId
      = some ((lookupA st.messages wm.chatId).getD [] ++ [opt]) := by
    rw [hst1]
    exact lookupA_setA_self wm.chatId _ st.messages
  have hmapped :
      ((lookupA st.messages wm.chatId).getD [] ++ [opt]).map
        (fun m => if m.localId = opt.localId then
          { m with serverId := some wm.id, status := .sent, timestamp := wm.timestamp }
          else m)
      = (lookupA st.messages wm.chatId).getD [] ++
        [{ opt with serverId := some wm.id, status := .sent, timestamp := wm.timestamp }] := by
    rw [List.map_append]
    congr 1
    · exact map_id_of_no_localId opt.localId _ _
        (fun m hm => by rw [if_neg hm]) (by simpa [getBucket] using hb)
    · simp
  generalize hgen : reducer st (.MESSAGE_ADDED opt) = st1 at hl1 ⊢
  have hl2 : lookupA
      (reducer st1 (.MESSAGE_UPDATED opt.localId wm)).messages wm.chatId
      = some ((lookupA st.messages wm.chatId).getD [] ++
          [{ opt with serverId := some wm.id, status := .sent, timestamp := wm.timestamp }]) := by
    simp only [reducer, hl1]
    rw [lookupA_setA_self, hmapped]
  constructor
  · simp only [countLocal, getBucket, hl2, Option.getD_some]
    rw [List.filter_append]
    have hnil : ((lookupA st.messages wm.chatId).getD []).filter
        (fun m => decide (m.localId = opt.localId)) = [] := by
      rw [List.filter_eq_nil_iff]
      intro a ha
      simpa using hb a (by simpa [getBucket] using ha)
    rw [hnil]
    simp
  · simp only [getByLocal, getBucket, hl2, Option.getD_some]
    rw [List.find?_append]
    have hnone : ((lookupA st.messages wm.chatId).getD []).find?
        (fun m => decide (m.localId = opt.localId)) = none := by
      rw [List.find?_eq_none]
      intro x hx
      simpa using hb x (by simpa [getBucket] using hx)
    rw [hnone]
    simp

/-- Witness for C6: the spec scenario send("bob","hi") followed by
message_sent with server id srv1 and timestamp 99. -/
theorem message_sent_ack_c6_witness :
    getByLocal
      (reducer
        (reducer initialState (.MESSAGE_ADDED
          { localId := "u1", serverId := none, chatId := "dm:alice:bob",
            senderUsername := "alice", receiverUsername := "bob",
            text := "hi", timestamp := 5, status := .sending }))
        (.MESSAGE_UPDATED "u1"
          { id := "srv1", chatId := "dm:alice:bob", fromUser := "alice",
            toUser := "bob", text := "hi", timestamp := 99 }))
      "dm:alice:bob" "u1"
    = some { localId := "u1", serverId := some "srv1", chatId := "dm:alice:bob",
             senderUsername := "alice", receiverUsername := "bob",
             text := "hi", timestamp := 99, status := .sent } :=
  ((message_sent_ack_c6 initialState
    { localId := "u1", serverId := none, chatId := "dm:alice:bob",
      senderUsername := "alice", receiverUsername := "bob",
      text := "hi", timestamp := 5, status := .sending }
    { id := "srv1", chatId := "dm:alice:bob", fromUser := "alice",
      toUser := "bob", text := "hi", timestamp := 99 }
    rfl rfl (by decide)).1).2

-- ── C5: messages_read sets read on exactly the matched messages ─────────

/-- C5: the messages_read transition sets status read on exactly those
messages of the given conversation that match the identifier list
(serverId when set, falling back to localId), regardless of their
current status, and leaves every other message — unmatched messages of
the conversation and all messages of other conversations — unchanged;
a missing conversation bucket leaves the state unchanged. -/
theorem messages_read_exact_c5 (st : SocketState) (chatId : String)
    (messageIds : List String) :
    (∀ cid, cid ≠ chatId →
      lookupA (onMessagesRead st chatId messageIds).messages cid
        = lookupA st.messages cid)
    ∧ (lookupA st.messages chatId = none →
        onMessagesRead st chatId messageIds = st)
    ∧ (∀ b, lookupA st.messages chatId = some b →
        ∃ b', lookupA (onMessagesRead st chatId messageIds).messages chatId = some b'
          ∧ List.Forall₂ (readUpgradeRel messageIds) b b') := by
  cases hlk : lookupA st.messages chatId with
  | none =>
    have hid : onMessagesRead st chatId messageIds = st := by
      simp only [onMessagesRead, reducer, hlk]
    exact ⟨fun cid h => by rw [hid], fun _ => hid,
      fun b hb => Option.noConfusion hb⟩
  | some bucket =>
    have hred : onMessagesRead st chatId messageIds
        = { st with
            messages := setA st.messages chatId
                (bucket.map (fun m =>
                  if matchesIds messageIds m then { m with status := MessageStatus.read }
                  else m)) } := by
      simp only [onMessagesRead, reducer, hlk]
    have hfa : ∀ bl : List ChatMessage,
        List.Forall₂ (readUpgradeRel messageIds) bl
          (bl.map (fun m =>
            if matchesIds messageIds m then { m with status := MessageStatus.read }
            else m)) := by
      intro bl
      induction bl with
      | nil => exact List.Forall₂.nil
      | cons a t ih =>
        rw [List.map_cons]
        refine List.Forall₂.cons ?_ ih
        cases hm : matchesIds messageIds a
        · exact ⟨fun htr => (by rw [hm] at htr; cases htr),
            fun _ => (by simp [hm])⟩
        · exact ⟨fun _ => (by simp [hm]),
            fun hfa => (by rw [hm] at hfa; cases hfa)⟩
    refine ⟨?_, ?_, ?_⟩
    · intro cid h
      rw [hred]
      exact lookupA_setA_ne chatId cid _ h st.messages
    · intro hnone
      exact Option.noConfusion hnone
    · intro b hb
      have hbb : bucket = b := by injection hb
      subst hbb
      refine ⟨_, ?_, hfa bucket⟩
      rw [hred]
      exact lookupA_setA_self chatId _ st.messages

/-- Witness for C5 at a concrete snapshot: a sent message matched via
serverId and a delivered message matched via localId upgrade to read,
while the unmatched message and the other conversation are untouched. -/
theorem messages_read_exact_c5_witness :
    (lookupA (onMessagesRead
        { connectionStatus := .connected
          messages := [("c",
            [{ localId := "l1", serverId := some "s1", chatId := "c",
               senderUsername := "alice", receiverUsername := "bob",
               text := "a", timestamp := 1, status := .sent },
             { localId := "l2", serverId := none, chatId := "c",
               senderUsername := "bob", receiverUsername := "alice",
               text := "b", timestamp := 2, status := .delivered },
             { localId := "l3", serverId := some "s3", chatId := "c",
               senderUsername := "alice", receiverUsername := "bob",
               text := "d", timestamp := 3, status := .sending }]),
            ("d", [])]
          typingPeers := []
          peerStatuses := []
          dbLoaded := true
          error := none } "c" ["s1", "l2"]).messages "d"
      = some [])
    ∧ ∃ b', lookupA (onMessagesRead
        { connectionStatus := .connected
          messages := [("c",
            [{ localId := "l1", serverId := some "s1", chatId := "c",
               senderUsername := "alice", receiverUsername := "bob",
               text := "a", timestamp := 1, status := .sent },
             { localId := "l2", serverId := none, chatId := "c",
               senderUsername := "bob", receiverUsername := "alice",
               text := "b", timestamp := 2, status := .delivered },
             { localId := "l3", serverId := some "s3", chatId := "c",
               senderUsername := "alice", receiverUsername := "bob",
               text := "d", timestamp := 3, status := .sending }]),
            ("d", [])]
          typingPeers := []
          peerStatuses := []
          dbLoaded := true
          error := none } "c" ["s1", "l2"]).messages "c" = some b'
      ∧ List.Forall₂ (readUpgradeRel ["s1", "l2"])
          [{ localId := "l1", serverId := some "s1", chatId := "c",
             senderUsername := "alice", receiverUsername := "bob",
             text := "a", timestamp := 1, status := .sent },
           { localId := "l2", serverId := none, chatId := "c",
             senderUsername := "bob", receiverUsername := "alice",
             text := "b", timestamp := 2, status := .delivered },
           { localId := "l3", serverId := some "s3", chatId := "c",
             senderUsername := "alice", receiverUsername := "bob",
             text := "d", timestamp := 3, status := .sending }] b' := by
  constructor
  · have h := (messages_read_exact_c5
      { connectionStatus := .connected
        messages := [("c",
          [{ localId := "l1", serverId := some "s1", chatId := "c",
             senderUsername := "alice", receiverUsername := "bob",
             text := "a", timestamp := 1, status := .sent },
           { localId := "l2", serverId := none, chatId := "c",
             senderUsername := "bob", receiverUsername := "alice",
             text := "b", timestamp := 2, status := .delivered },
           { localId := "l3", serverId := some "s3", chatId := "c",
             senderUsername := "alice", receiverUsername := "bob",
             text := "d", timestamp := 3, status := .sending }]),
          ("d", [])]
        typingPeers := []
        peerStatuses := []
        dbLoaded := true
        error := none } "c" ["s1", "l2"]).1 "d" (by decide)
    rw [h]
    decide
  · exact (messages_read_exact_c5
      { connectionStatus := .connected
        messages := [("c",
          [{ localId := "l1", serverId := some "s1", chatId := "c",
             senderUsername := "alice", receiverUsername := "bob",
             text := "a", timestamp := 1, status := .sent },
           { localId := "l2", serverId := none, chatId := "c",
             senderUsername := "bob", receiverUsername := "alice",
             text := "b", timestamp := 2, status := .delivered },
           { localId := "l3", serverId := some "s3", chatId := "c",
             senderUsername := "alice", receiverUsername := "bob",
             text := "d", timestamp := 3, status := .sending }]),
          ("d", [])]
        typingPeers := []
        peerStatuses := []
        dbLoaded := true
        error := none } "c" ["s1", "l2"]).2.2 _ (by decide)

-- ── Per-bucket localId uniqueness machinery ─────────────────────────────

theorem lookupA_mem {α : Type} (k : String) :
    ∀ (m : List (String × α)) (v : α), lookupA m k = some v → (k, v) ∈ m := by
  intro m
  induction m with
  | nil => intro v h; simp [lookupA] at h
  | cons kv rest ih =>
    intro v h
    by_cases hk : kv.1 = k
    · simp only [lookupA, if_pos hk] at h
      obtain ⟨k1, v1⟩ := kv
      simp only at hk
      subst hk
      cases h
      exact List.mem_cons_self _ _
    · simp only [lookupA, if_neg hk] at h
      exact List.mem_cons_of_mem _ (ih v h)

theorem mem_setA {α : Type} (k : String) (v : α) :
    ∀ m : List (String × α), ∀ kv ∈ setA m k v, kv = (k, v) ∨ kv ∈ m := by
  intro m
  induction m with
  | nil => intro kv h; simp [setA] at h; left; exact h
  | cons kv0 rest ih =>
    intro kv h
    by_cases hk : kv0.1 = k
    · simp only [setA, if_pos hk] at h
      rcases List.mem_cons.mp h with h | h
      · left; exact h
      · right; exact List.mem_cons_of_mem _ h
    · simp only [setA, if_neg hk] at h
      rcases List.mem_cons.mp h with h | h
      · right; exact h ▸ List.mem_cons_self _ _
      · rcases ih kv h with h2 | h2
        · left; exact h2
        · right; exact List.mem_cons_of_mem _ h2

theorem nodup_append_single (b : List ChatMessage) (p : ChatMessage)
    (hnd : (b.map (fun m => m.localId)).Nodup)
    (habs : hasLocalId b p.localId = false) :
    ((b ++ [p]).map (fun m => m.localId)).Nodup := by
  rw [List.map_append, List.nodup_append]
  refine ⟨hnd, by simp, ?_⟩
  intro a ha hb
  simp only [List.map_cons, List.map_nil, List.mem_singleton] at hb
  subst hb
  rw [List.mem_map] at ha
  obtain ⟨m, hm, hml⟩ := ha
  have htrue : hasLocalId b p.localId = true := by
    simp only [hasLocalId, List.any_eq_true]
    exact ⟨m, hm, by simp [hml]⟩
  rw [habs] at htrue
  cases htrue

theorem bucket_nodup_of_nodupBuckets {m : List (String × List ChatMessage)}
    (h : nodupBuckets m) (cid : String) :
    (((lookupA m cid).getD []).map (fun msg => msg.localId)).Nodup := by
  cases hlk : lookupA m cid with
  | none => simp
  | some b =>
    simpa using h (cid, b) (lookupA_mem cid m b hlk)

theorem nodupBuckets_setA (m : List (String × List ChatMessage))
    (k : String) (v : List ChatMessage) (h : nodupBuckets m)
    (hv : (v.map (fun msg => msg.localId)).Nodup) :
    nodupBuckets (setA m k v) := by
  intro kv hkv
  rcases mem_setA k v m kv hkv with h2 | h2
  · subst h2; exact hv
  · exact h kv h2

theorem nodupBuckets_addIfAbsent (msg : ChatMessage)
    (m : List (String × List ChatMessage)) (h : nodupBuckets m) :
    nodupBuckets (addIfAbsent m msg) := by
  unfold addIfAbsent
  cases hc : hasLocalId ((lookupA m msg.chatId).getD []) msg.localId
  · simp only [hc, Bool.false_eq_true, if_false]
    exact nodupBuckets_setA m msg.chatId _ h
      (nodup_append_single _ msg (bucket_nodup_of_nodupBuckets h msg.chatId) hc)
  · simp only [hc, if_true]
    exact h

theorem nodupBuckets_foldl_addIfAbsent (payload : List ChatMessage) :
    ∀ m : List (String × List ChatMessage), nodupBuckets m →
    nodupBuckets (payload.foldl addIfAbsent m) := by
  induction payload with
  | nil => intro m h; exact h
  | cons p ps ih =>
    intro m h
    exact ih (addIfAbsent m p) (nodupBuckets_addIfAbsent p m h)

theorem nodupBuckets_mapVals_sort (m : List (String × List ChatMessage))
    (h : nodupBuckets m) : nodupBuckets (mapValsA sortBucket m) := by
  intro kv hkv
  simp only [mapValsA, List.mem_map] at hkv
  obtain ⟨kv0, hkv0, hEq⟩ := hkv
  cases hEq
  have hperm : List.Perm ((sortBucket kv0.2).map (fun msg => msg.localId))
      (kv0.2.map (fun msg => msg.localId)) :=
    (sortBucket_perm kv0.2).map _
  exact hperm.nodup_iff.mpr (h kv0 hkv0)

theorem nodupBuckets_eraseA (m : List (String × List ChatMessage))
    (k : String) (h : nodupBuckets m) : nodupBuckets (eraseA m k) := by
  intro kv hkv
  exact h kv (List.mem_of_mem_filter hkv)

theorem nodupBuckets_map_bucket (m : List (String × List ChatMessage))
    (cid : String) (b : List ChatMessage) (f : ChatMessage → ChatMessage)
    (hf : ∀ x, (f x).localId = x.localId)
    (h : nodupBuckets m) (hlk : lookupA m cid = some b) :
    nodupBuckets (setA m cid (b.map f)) := by
  apply nodupBuckets_setA m cid _ h
  have : (b.map f).map (fun msg => msg.localId) = b.map (fun msg => msg.localId) := by
    rw [List.map_map]
    exact List.map_congr_left (fun a _ => hf a)
  rw [this]
  simpa using h (cid, b) (lookupA_mem cid m b hlk)

theorem nodupBuckets_reducer (st : SocketState) (a : SocketAction)
    (h : nodupBuckets st.messages) : nodupBuckets (reducer st a).messages := by
  cases a with
  | DB_HYDRATED payload =>
    exact nodupBuckets_mapVals_sort _ (nodupBuckets_foldl_addIfAbsent payload _ h)
  | MESSAGES_BULK_ADD payload =>
    exact nodupBuckets_mapVals_sort _ (nodupBuckets_foldl_addIfAbsent payload _ h)
  | CONNECTING => exact h
  | CONNECTED => exact h
  | RECONNECTING => exact h
  | DISCONNECTED => exact h
  | AUTH_FAILED payload => exact h
  | ERROR payload => exact h
  | MESSAGE_UPDATED localId serverMsg =>
    simp only [reducer]
    cases hlk : lookupA st.messages serverMsg.chatId with
    | none => exact h
    | some bucket =>
      exact nodupBuckets_map_bucket st.messages serverMsg.chatId bucket _
        (fun x => by by_cases hx : x.localId = localId <;> simp [hx]) h hlk
  | MESSAGE_ADDED payload =>
    simp only [reducer]
    cases hc : hasLocalId ((lookupA st.messages payload.chatId).getD []) payload.localId
    · simp only [hc, Bool.false_eq_true, if_false]
      exact nodupBuckets_setA st.messages payload.chatId _ h
        (nodup_append_single _ payload
          (bucket_nodup_of_nodupBuckets h payload.chatId) hc)
    · simp only [hc, if_true]
      exact h
  | MESSAGES_MARKED_READ chatId readerUsername =>
    simp only [reducer]
    cases hlk : lookupA st.messages chatId with
    | none => exact h
    | some bucket =>
      exact nodupBuckets_map_bucket st.messages chatId bucket _
        (fun x => by
          by_cases hx : x.senderUsername ≠ readerUsername ∧ x.status ≠ MessageStatus.read
            <;> simp [hx]) h hlk
  | MESSAGES_READ_BY_PEER chatId messageIds =>
    simp only [reducer]
    cases hlk : lookupA st.messages chatId with
    | none => exact h
    | some bucket =>
      exact nodupBuckets_map_bucket st.messages chatId bucket _
        (fun x => by by_cases hx : x.localId ∈ messageIds <;> simp [hx]) h hlk
  | TYPING_UPDATE peerUsername isTyping => exact h
  | PEER_STATUS username status => exact h
  | CLEAR_CHAT chatId => exact nodupBuckets_eraseA st.messages chatId h
  | MESSAGES_UPDATED_STATUS chatId messageIds status =>
    simp only [reducer]
    cases hlk : lookupA st.messages chatId with
    | none => exact h
    | some bucket =>
      exact nodupBuckets_map_bucket st.messages chatId bucket _
        (fun x => by cases hx : matchesIds messageIds x <;> simp [hx]) h hlk

theorem nodupBuckets_applyActions (acts : List SocketAction) :
    ∀ st : SocketState, nodupBuckets st.messages →
    nodupBuckets (applyActions st acts).messages := by
  induction acts with
  | nil => intro st h; exact h
  | cons a rest ih =>
    intro st h
    exact ih (reducer st a) (nodupBuckets_reducer st a h)

-- ── C4: localId uniqueness ──────────────────────────────────────────────

/-- Counterexample to C4 as stated: from the initial state, two reducer
transitions adding messages with the same localId x into two different
conversation buckets yield a reachable snapshot in which two messages of
the in-memory message map share the localId x — the MESSAGE_ADDED
deduplication is per-bucket only. -/
theorem localid_cross_bucket_c4_counterexample :
    countLocalAll (applyActions initialState
      [.MESSAGE_ADDED
        { localId := "x", serverId := none, chatId := "a",
          senderUsername := "bob", receiverUsername := "alice",
          text := "t1", timestamp := 1, status := .delivered },
       .MESSAGE_ADDED
        { localId := "x", serverId := none, chatId := "b",
          senderUsername := "carol", receiverUsername := "alice",
          text := "t2", timestamp := 2, status := .delivered }]) "x" = 2 := by
  decide

/-- C4 amended: in every snapshot reachable from the initial state by
reducer transitions, each localId identifies at most one message within
each conversation bucket (every bucket's localIds are pairwise
distinct); across different buckets the same localId can recur. -/
theorem localid_unique_per_bucket_c4_amended (acts : List SocketAction) :
    ∀ kv ∈ (applyActions initialState acts).messages,
      List.Nodup (kv.2.map (fun msg => msg.localId)) :=
  nodupBuckets_applyActions acts initialState (by intro kv hkv; simp [initialState] at hkv)

/-- Witness for the amended C4: a concrete reachable snapshot in which
the touched bucket has pairwise-distinct localIds. -/
theorem localid_unique_per_bucket_c4_amended_witness :
    List.Nodup ((getBucket (applyActions initialState
      [.MESSAGE_ADDED
        { localId := "x", serverId := none, chatId := "a",
          senderUsername := "bob", receiverUsername := "alice",
          text := "t1", timestamp := 1, status := .delivered },
       .MESSAGE_ADDED
        { localId := "y", serverId := none, chatId := "a",
          senderUsername := "bob", receiverUsername := "alice",
          text := "t2", timestamp := 2, status := .delivered }]) "a").map
      (fun msg => msg.localId)) :=
  localid_unique_per_bucket_c4_amended
    [.MESSAGE_ADDED
      { localId := "x", serverId := none, chatId := "a",
        senderUsername := "bob", receiverUsername := "alice",
        text := "t1", timestamp := 1, status := .delivered },
     .MESSAGE_ADDED
      { localId := "y", serverId := none, chatId := "a",
        senderUsername := "bob", receiverUsername := "alice",
        text := "t2", timestamp := 2, status := .delivered }]
    ("a", getBucket (applyActions initialState
      [.MESSAGE_ADDED
        { localId := "x", serverId := none, chatId := "a",
          senderUsername := "bob", receiverUsername := "alice",
          text := "t1", timestamp := 1, status := .delivered },
       .MESSAGE_ADDED
        { localId := "y", serverId := none, chatId := "a",
          senderUsername := "bob", receiverUsername := "alice",
          text := "t2", timestamp := 2, status := .delivered }]) "a")
    (by decide)

-- ── C2: bulk-append sorting ─────────────────────────────────────────────

/-- Counterexample to C2 as stated: the pending_messages backlog flush is
a bulk-append event, yet delivering backlog timestamps 300, 100, 200
into an empty conversation leaves the bucket in arrival order
[300, 100, 200], not sorted ascending — the handler dispatches one
MESSAGE_ADDED per message and never re-sorts. -/
theorem pending_unsorted_c2_counterexample :
    bucketTimestamps (onPendingMessages "alice" initialState
      [{ id := "m1", chatId := "c", fromUser := "bob", toUser := "alice",
         text := "x", timestamp := 300 },
       { id := "m2", chatId := "c", fromUser := "bob", toUser := "alice",
         text := "y", timestamp := 100 },
       { id := "m3", chatId := "c", fromUser := "bob", toUser := "alice",
         text := "z", timestamp := 200 }]) "c"
      = [300, 100, 200]
    ∧ ¬ List.Pairwise tsLE (getBucket (onPendingMessages "alice" initialState
        [{ id := "m1", chatId := "c", fromUser := "bob", toUser := "alice",
           text := "x", timestamp := 300 },
         { id := "m2", chatId := "c", fromUser := "bob", toUser := "alice",
           text := "y", timestamp := 100 },
         { id := "m3", chatId := "c", fromUser := "bob", toUser := "alice",
           text := "z", timestamp := 200 }]) "c") := by
  constructor
  · decide
  · decide

/-- C2 amended: the history-replay bulk append (MESSAGES_BULK_ADD) leaves
every conversation bucket sorted by timestamp ascending after merging —
in particular bulk-appending history timestamps 300, 100, 200 into an
empty conversation yields [100, 200, 300] — whereas the
pending_messages backlog flush appends each message individually in
arrival order without re-sorting. -/
theorem bulk_sorted_c2_amended (st : SocketState) (payload : List ChatMessage) :
    (∀ kv ∈ (reducer st (.MESSAGES_BULK_ADD payload)).messages,
      List.Pairwise tsLE kv.2)
    ∧ bucketTimestamps (onHistory "alice" initialState "c" "bob"
        [{ id := "m1", chatId := "c", fromUser := "bob", toUser := "alice",
           text := "x", timestamp := 300 },
         { id := "m2", chatId := "c", fromUser := "bob", toUser := "alice",
           text := "y", timestamp := 100 },
         { id := "m3", chatId := "c", fromUser := "bob", toUser := "alice",
           text := "z", timestamp := 200 }]) "c" = [100, 200, 300] := by
  constructor
  · intro kv hkv
    simp only [reducer, mapValsA, List.mem_map] at hkv
    obtain ⟨kv0, hkv0, hEq⟩ := hkv
    cases hEq
    exact sortBucket_pairwise kv0.2
  · decide

/-- Witness for the amended C2 at a concrete out-of-order bulk append. -/
theorem bulk_sorted_c2_amended_witness :
    List.Pairwise tsLE (getBucket (reducer initialState (.MESSAGES_BULK_ADD
      [{ localId := "m1", serverId := none, chatId := "c",
         senderUsername := "bob", receiverUsername := "alice",
         text := "x", timestamp := 300, status := .delivered },
       { localId := "m2", serverId := none, chatId := "c",
         senderUsername := "bob", receiverUsername := "alice",
         text := "y", timestamp := 100, status := .delivered }])) "c") :=
  (bulk_sorted_c2_amended initialState
    [{ localId := "m1", serverId := none, chatId := "c",
       senderUsername := "bob", receiverUsername := "alice",
       text := "x", timestamp := 300, status := .delivered },
     { localId := "m2", serverId := none, chatId := "c",
       senderUsername := "bob", receiverUsername := "alice",
       text := "y", timestamp := 100, status := .delivered }]).1
    ("c", getBucket (reducer initialState (.MESSAGES_BULK_ADD
      [{ localId := "m1", serverId := none, chatId := "c",
         senderUsername := "bob", receiverUsername := "alice",
         text := "x", timestamp := 300, status := .delivered },
       { localId := "m2", serverId := none, chatId := "c",
         senderUsername := "bob", receiverUsername := "alice",
         text := "y", timestamp := 100, status := .delivered }])) "c")
    (by decide)

-- ── Idempotence machinery ───────────────────────────────────────────────

theorem hasLocalId_iff (b : List ChatMessage) (l : String) :
    hasLocalId b l = true ↔ ∃ m ∈ b, m.localId = l := by
  simp [hasLocalId]

theorem filter_nil_of_hasLocalId_false (b : List ChatMessage) (l : String)
    (h : hasLocalId b l = false) :
    b.filter (fun m => decide (m.localId = l)) = [] := by
  simp only [hasLocalId, List.any_eq_false, decide_eq_true_eq] at h
  rw [List.filter_eq_nil_iff]
  intro a ha
  simpa using h a ha

theorem count_filter_one_of_nodup (l : String) :
    ∀ b : List ChatMessage, (b.map (fun m => m.localId)).Nodup →
    hasLocalId b l = true →
    (b.filter (fun m => decide (m.localId = l))).length = 1 := by
  intro b
  induction b with
  | nil => intro _ hmem; simp [hasLocalId] at hmem
  | cons x xs ih =>
    intro hnd hmem
    rw [List.map_cons, List.nodup_cons] at hnd
    obtain ⟨hx, hxs⟩ := hnd
    by_cases hl : x.localId = l
    · rw [List.filter_cons, if_pos (by simp [hl])]
      have hfil : xs.filter (fun m => decide (m.localId = l)) = [] := by
        apply filter_nil_of_hasLocalId_false
        cases hc : hasLocalId xs l
        · rfl
        · rw [hasLocalId_iff] at hc
          obtain ⟨m, hm, hml⟩ := hc
          exact absurd (List.mem_map.mpr ⟨m, hm, by rw [hml, hl]⟩) hx
      rw [hfil]
      rfl
    · rw [List.filter_cons, if_neg (by simp [hl])]
      apply ih hxs
      rw [hasLocalId_iff] at hmem ⊢
      obtain ⟨m, hm, hml⟩ := hmem
      rcases List.mem_cons.mp hm with hm | hm
      · subst hm; exact absurd hml hl
      · exact ⟨m, hm, hml⟩

theorem addIfAbsent_of_present (acc : List (String × List ChatMessage))
    (msg : ChatMessage)
    (h : hasLocalId ((lookupA acc msg.chatId).getD []) msg.localId = true) :
    addIfAbsent acc msg = acc := by
  unfold addIfAbsent
  simp [h]

theorem hasLocalId_addIfAbsent_self (acc : List (String × List ChatMessage))
    (msg : ChatMessage) :
    hasLocalId ((lookupA (addIfAbsent acc msg) msg.chatId).getD [])
      msg.localId = true := by
  unfold addIfAbsent
  cases hc : hasLocalId ((lookupA acc msg.chatId).getD []) msg.localId
  · simp only [hc, Bool.false_eq_true, if_false, lookupA_setA_self, Option.getD_some]
    rw [hasLocalId_iff]
    exact ⟨msg, by simp, rfl⟩
  · simp [hc]

theorem hasLocalId_addIfAbsent_mono (acc : List (String × List ChatMessage))
    (p : ChatMessage) (cid l : String)
    (h : hasLocalId ((lookupA acc cid).getD []) l = true) :
    hasLocalId ((lookupA (addIfAbsent acc p) cid).getD []) l = true := by
  unfold addIfAbsent
  cases hc : hasLocalId ((lookupA acc p.chatId).getD []) p.localId
  · simp only [hc, Bool.false_eq_true, if_false]
    by_cases hk : cid = p.chatId
    · subst hk
      rw [lookupA_setA_self, Option.getD_some]
      rw [hasLocalId_iff] at h ⊢
      obtain ⟨m, hm, hml⟩ := h
      exact ⟨m, List.mem_append_left _ hm, hml⟩
    · rw [lookupA_setA_ne p.chatId cid _ hk]
      exact h
  · simpa [hc] using h

theorem hasLocalId_foldl_mono (ps : List ChatMessage) :
    ∀ (acc : List (String × List ChatMessage)) (cid l : String),
    hasLocalId ((lookupA acc cid).getD []) l = true →
    hasLocalId ((lookupA (ps.foldl addIfAbsent acc) cid).getD []) l = true := by
  induction ps with
  | nil => intro acc cid l h; exact h
  | cons q qs ih =>
    intro acc cid l h
    exact ih (addIfAbsent acc q) cid l (hasLocalId_addIfAbsent_mono acc q cid l h)

theorem present_after_foldl (payload : List ChatMessage) :
    ∀ acc : List (String × List ChatMessage), ∀ m ∈ payload,
    hasLocalId ((lookupA (payload.foldl addIfAbsent acc) m.chatId).getD [])
      m.localId = true := by
  induction payload with
  | nil => intro acc m hm; simp at hm
  | cons q qs ih =>
    intro acc m hm
    rcases List.mem_cons.mp hm with hm | hm
    · subst hm
      exact hasLocalId_foldl_mono qs (addIfAbsent acc m) m.chatId m.localId
        (hasLocalId_addIfAbsent_self acc m)
    · exact ih (addIfAbsent acc q) m hm

theorem hasLocalId_sortBucket (b : List ChatMessage) (l : String) :
    hasLocalId (sortBucket b) l = hasLocalId b l := by
  cases hc : hasLocalId b l
  · cases hs : hasLocalId (sortBucket b) l
    · rfl
    · rw [hasLocalId_iff] at hs
      obtain ⟨m, hm, hml⟩ := hs
      have : hasLocalId b l = true := by
        rw [hasLocalId_iff]
        exact ⟨m, (sortBucket_perm b).mem_iff.mp hm, hml⟩
      rw [hc] at this
      cases this
  · rw [hasLocalId_iff] at hc ⊢
    obtain ⟨m, hm, hml⟩ := hc
    exact ⟨m, (sortBucket_perm b).mem_iff.mpr hm, hml⟩

theorem mapVals_sort_preserves_presence (m : List (String × List ChatMessage))
    (cid l : String)
    (h : hasLocalId ((lookupA m cid).getD []) l = true) :
    hasLocalId ((lookupA (mapValsA sortBucket m) cid).getD []) l = true := by
  rw [lookupA_mapValsA]
  cases hlk : lookupA m cid with
  | none => rw [hlk] at h; simp [hasLocalId] at h
  | some b =>
    rw [hlk] at h
    have hgd : (Option.map sortBucket (some b)).getD [] = sortBucket b := rfl
    rw [hgd, hasLocalId_sortBucket]
    exact h

theorem foldl_addIfAbsent_all_present (payload : List ChatMessage) :
    ∀ acc : List (String × List ChatMessage),
    (∀ m ∈ payload, hasLocalId ((lookupA acc m.chatId).getD []) m.localId = true) →
    payload.foldl addIfAbsent acc = acc := by
  induction payload with
  | nil => intro acc _; rfl
  | cons q qs ih =>
    intro acc h
    have hq : addIfAbsent acc q = acc := addIfAbsent_of_present acc q (h q (by simp))
    show qs.foldl addIfAbsent (addIfAbsent acc q) = acc
    rw [hq]
    exact ih acc (fun m hm => h m (List.mem_cons_of_mem _ hm))

theorem mapValsA_sort_idem (m : List (String × List ChatMessage)) :
    mapValsA sortBucket (mapValsA sortBucket m) = mapValsA sortBucket m := by
  simp only [mapValsA, List.map_map]
  apply List.map_congr_left
  intro kv _
  simp only [Function.comp]
  rw [sortBucket_of_sorted _ (sortBucket_pairwise kv.2)]

-- ── C9: idempotent merge ────────────────────────────────────────────────

/-- C9: on any snapshot whose buckets have pairwise-distinct localIds,
applying the same inbound message event twice — a single-message
MESSAGE_ADDED or a bulk MESSAGES_BULK_ADD — produces the same state as
applying it once, and afterwards each delivered localId occurs exactly
once in its conversation bucket. -/
theorem idempotent_merge_c9 (st : SocketState)
    (h : nodupBuckets st.messages) (msg : ChatMessage)
    (payload : List ChatMessage) :
    (reducer (reducer st (.MESSAGE_ADDED msg)) (.MESSAGE_ADDED msg)
        = reducer st (.MESSAGE_ADDED msg)
      ∧ countLocal (reducer st (.MESSAGE_ADDED msg)) msg.chatId msg.localId = 1)
    ∧ (reducer (reducer st (.MESSAGES_BULK_ADD payload)) (.MESSAGES_BULK_ADD payload)
        = reducer st (.MESSAGES_BULK_ADD payload)
      ∧ ∀ m ∈ payload,
          countLocal (reducer st (.MESSAGES_BULK_ADD payload)) m.chatId m.localId = 1) := by
  constructor
  · cases hc : hasLocalId ((lookupA st.messages msg.chatId).getD []) msg.localId
    · have hmsgs1 : (reducer st (.MESSAGE_ADDED msg)).messages
          = setA st.messages msg.chatId
              ((lookupA st.messages msg.chatId).getD [] ++ [msg]) := by
        simp only [reducer, hc, Bool.false_eq_true, if_false]
      have hpres1 : hasLocalId
          ((lookupA (reducer st (.MESSAGE_ADDED msg)).messages msg.chatId).getD [])
          msg.localId = true := by
        rw [hmsgs1, lookupA_setA_self, Option.getD_some, hasLocalId_iff]
        exact ⟨msg, by simp, rfl⟩
      constructor
      · generalize hgen : reducer st (.MESSAGE_ADDED msg) = st1 at hpres1 ⊢
        simp only [reducer, hpres1, if_true]
      · simp only [countLocal, getBucket, hmsgs1, lookupA_setA_self, Option.getD_some]
        rw [List.filter_append, filter_nil_of_hasLocalId_false _ _ hc]
        simp
    · have hid : reducer st (.MESSAGE_ADDED msg) = st := by
        simp only [reducer, hc, if_true]
      rw [hid]
      refine ⟨hid, ?_⟩
      exact count_filter_one_of_nodup msg.localId _
        (bucket_nodup_of_nodupBuckets h msg.chatId) hc
  · have hmsgs1 : (reducer st (.MESSAGES_BULK_ADD payload)).messages
        = mapValsA sortBucket (payload.foldl addIfAbsent st.messages) := by
      simp only [reducer]
    have hpres : ∀ m ∈ payload,
        hasLocalId ((lookupA (reducer st (.MESSAGES_BULK_ADD payload)).messages
          m.chatId).getD []) m.localId = true := by
      intro m hm
      rw [hmsgs1]
      exact mapVals_sort_preserves_presence _ m.chatId m.localId
        (present_after_foldl payload st.messages m hm)
    constructor
    · have hfold : payload.foldl addIfAbsent
          (reducer st (.MESSAGES_BULK_ADD payload)).messages
          = (reducer st (.MESSAGES_BULK_ADD payload)).messages :=
        foldl_addIfAbsent_all_present payload _ hpres
      have hsort : mapValsA sortBucket
          (reducer st (.MESSAGES_BULK_ADD payload)).messages
          = (reducer st (.MESSAGES_BULK_ADD payload)).messages := by
        rw [hmsgs1]
        exact mapValsA_sort_idem _
      have hstep : reducer (reducer st (.MESSAGES_BULK_ADD payload))
          (.MESSAGES_BULK_ADD payload)
          = { reducer st (.MESSAGES_BULK_ADD payload) with
              messages := mapValsA sortBucket (payload.foldl addIfAbsent
                (reducer st (.MESSAGES_BULK_ADD payload)).messages) } := rfl
      rw [hstep, hfold, hsort]
    · intro m hm
      have hnd0 : nodupBuckets (payload.foldl addIfAbsent st.messages) :=
        nodupBuckets_foldl_addIfAbsent payload st.messages h
      have hpresm := present_after_foldl payload st.messages m hm
      simp only [countLocal, getBucket, hmsgs1, lookupA_mapValsA]
      cases hlk : lookupA (payload.foldl addIfAbsent st.messages) m.chatId with
      | none => rw [hlk] at hpresm; simp [hasLocalId] at hpresm
      | some b =>
        rw [hlk] at hpresm
        have hgd : (Option.map sortBucket (some b)).getD [] = sortBucket b := rfl
        rw [hgd]
        have hcount : ((sortBucket b).filter
              (fun x => decide (x.localId = m.localId))).length
            = (b.filter (fun x => decide (x.localId = m.localId))).length :=
          ((sortBucket_perm b).filter _).length_eq
        rw [hcount]
        exact count_filter_one_of_nodup m.localId b
          (by simpa using hnd0 (m.chatId, b) (lookupA_mem m.chatId _ b hlk))
          (by simpa using hpresm)

/-- Witness for C9: a concrete duplicated delivery of one message and of
a two-message bulk batch. -/
theorem idempotent_merge_c9_witness :
    (reducer (reducer initialState (.MESSAGE_ADDED
        { localId := "w1", serverId := none, chatId := "c",
          senderUsername := "bob", receiverUsername := "alice",
          text := "x", timestamp := 1, status := .delivered }))
      (.MESSAGE_ADDED
        { localId := "w1", serverId := none, chatId := "c",
          senderUsername := "bob", receiverUsername := "alice",
          text := "x", timestamp := 1, status := .delivered })
      = reducer initialState (.MESSAGE_ADDED
        { localId := "w1", serverId := none, chatId := "c",
          senderUsername := "bob", receiverUsername := "alice",
          text := "x", timestamp := 1, status := .delivered }))
    ∧ countLocal (reducer initialState (.MESSAGE_ADDED
        { localId := "w1", serverId := none, chatId := "c",
          senderUsername := "bob", receiverUsername := "alice",
          text := "x", timestamp := 1, status := .delivered })) "c" "w1" = 1 := by
  have h := idempotent_merge_c9 initialState
    (by intro kv hkv; simp [initialState] at hkv)
    { localId := "w1", serverId := none, chatId := "c",
      senderUsername := "bob", receiverUsername := "alice",
      text := "x", timestamp := 1, status := .delivered } []
  exact ⟨h.1.1, h.1.2⟩

-- ── No-failed-status machinery ──────────────────────────────────────────

theorem bucket_noFailed {m : List (String × List ChatMessage)}
    (h : noFailedBuckets m) (cid : String) :
    ∀ x ∈ (lookupA m cid).getD [], x.status ≠ MessageStatus.failed := by
  cases hlk : lookupA m cid with
  | none => intro x hx; simp at hx
  | some b =>
    intro x hx
    exact h (cid, b) (lookupA_mem cid m b hlk) x (by simpa using hx)

theorem noFailedBuckets_setA (m : List (String × List ChatMessage))
    (k : String) (v : List ChatMessage) (h : noFailedBuckets m)
    (hv : ∀ x ∈ v, x.status ≠ MessageStatus.failed) :
    noFailedBuckets (setA m k v) := by
  intro kv hkv
  rcases mem_setA k v m kv hkv with h2 | h2
  · subst h2; exact hv
  · exact h kv h2

theorem noFailedBuckets_addIfAbsent (msg : ChatMessage)
    (hmsg : msg.status ≠ MessageStatus.failed)
    (m : List (String × List ChatMessage)) (h : noFailedBuckets m) :
    noFailedBuckets (addIfAbsent m msg) := by
  unfold addIfAbsent
  cases hc : hasLocalId ((lookupA m msg.chatId).getD []) msg.localId
  · simp only [hc, Bool.false_eq_true, if_false]
    apply noFailedBuckets_setA m msg.chatId _ h
    intro x hx
    rcases List.mem_append.mp hx with hx | hx
    · exact bucket_noFailed h msg.chatId x hx
    · rw [List.mem_singleton] at hx
      subst hx
      exact hmsg
  · simp only [hc, if_true]
    exact h

theorem noFailedBuckets_foldl (payload : List ChatMessage) :
    ∀ m : List (String × List ChatMessage), noFailedBuckets m →
    (∀ p ∈ payload, p.status ≠ MessageStatus.failed) →
    noFailedBuckets (payload.foldl addIfAbsent m) := by
  induction payload with
  | nil => intro m h _; exact h
  | cons q qs ih =>
    intro m h hp
    exact ih (addIfAbsent m q)
      (noFailedBuckets_addIfAbsent q (hp q (by simp)) m h)
      (fun p hpp => hp p (List.mem_cons_of_mem _ hpp))

theorem noFailedBuckets_mapVals_sort (m : List (String × List ChatMessage))
    (h : noFailedBuckets m) : noFailedBuckets (mapValsA sortBucket m) := by
  intro kv hkv
  simp only [mapValsA, List.mem_map] at hkv
  obtain ⟨kv0, hkv0, hEq⟩ := hkv
  cases hEq
  intro x hx
  exact h kv0 hkv0 x ((sortBucket_perm kv0.2).mem_iff.mp hx)

theorem noFailedBuckets_map_bucket (m : List (String × List ChatMessage))
    (cid : String) (b : List ChatMessage) (f : ChatMessage → ChatMessage)
    (hf : ∀ x ∈ b, x.status ≠ MessageStatus.failed →
      (f x).status ≠ MessageStatus.failed)
    (h : noFailedBuckets m) (hlk : lookupA m cid = some b) :
    noFailedBuckets (setA m cid (b.map f)) := by
  apply noFailedBuckets_setA m cid _ h
  intro y hy
  rw [List.mem_map] at hy
  obtain ⟨x, hx, hxy⟩ := hy
  subst hxy
  exact hf x hx (h (cid, b) (lookupA_mem cid m b hlk) x hx)

theorem noFailed_reducer (st : SocketState) (a : SocketAction)
    (h : noFailedBuckets st.messages) (ha : dispatchedShape a = true) :
    noFailedBuckets (reducer st a).messages := by
  cases a with
  | DB_HYDRATED payload =>
    have hp : ∀ p ∈ payload, p.status ≠ MessageStatus.failed := by
      simp only [dispatchedShape, List.all_eq_true, decide_eq_true_eq] at ha
      exact ha
    exact noFailedBuckets_mapVals_sort _ (noFailedBuckets_foldl payload _ h hp)
  | MESSAGES_BULK_ADD payload =>
    have hp : ∀ p ∈ payload, p.status ≠ MessageStatus.failed := by
      simp only [dispatchedShape, List.all_eq_true, Bool.or_eq_true,
        decide_eq_true_eq] at ha
      intro p hpp
      rcases ha p hpp with h2 | h2 <;> simp [h2]
    exact noFailedBuckets_mapVals_sort _ (noFailedBuckets_foldl payload _ h hp)
  | CONNECTING => exact h
  | CONNECTED => exact h
  | RECONNECTING => exact h
  | DISCONNECTED => exact h
  | AUTH_FAILED payload => exact h
  | ERROR payload => exact h
  | MESSAGE_UPDATED localId serverMsg =>
    simp only [reducer]
    cases hlk : lookupA st.messages serverMsg.chatId with
    | none => exact h
    | some bucket =>
      refine noFailedBuckets_map_bucket st.messages serverMsg.chatId bucket _
        ?_ h hlk
      intro x _ hx
      by_cases hm : x.localId = localId <;> simp [hm, hx]
  | MESSAGE_ADDED payload =>
    have hp : payload.status ≠ MessageStatus.failed := by
      simp only [dispatchedShape, Bool.or_eq_true, decide_eq_true_eq] at ha
      rcases ha with h2 | h2 <;> simp [h2]
    simp only [reducer]
    cases hc : hasLocalId ((lookupA st.messages payload.chatId).getD [])
        payload.localId
    · simp only [hc, Bool.false_eq_true, if_false]
      apply noFailedBuckets_setA st.messages payload.chatId _ h
      intro x hx
      rcases List.mem_append.mp hx with hx | hx
      · exact bucket_noFailed h payload.chatId x hx
      · rw [List.mem_singleton] at hx
        subst hx
        exact hp
    · simp only [hc, if_true]
      exact h
  | MESSAGES_MARKED_READ chatId readerUsername =>
    simp only [reducer]
    cases hlk : lookupA st.messages chatId with
    | none => exact h
    | some bucket =>
      refine noFailedBuckets_map_bucket st.messages chatId bucket _ ?_ h hlk
      intro x _ hx
      by_cases hm : x.senderUsername ≠ readerUsername ∧ x.status ≠ MessageStatus.read
        <;> simp [hm, hx]
  | MESSAGES_READ_BY_PEER chatId messageIds =>
    simp only [reducer]
    cases hlk : lookupA st.messages chatId with
    | none => exact h
    | some bucket =>
      refine noFailedBuckets_map_bucket st.messages chatId bucket _ ?_ h hlk
      intro x _ hx
      by_cases hm : x.localId ∈ messageIds <;> simp [hm, hx]
  | TYPING_UPDATE peerUsername isTyping => exact h
  | PEER_STATUS username status => exact h
  | CLEAR_CHAT chatId =>
    intro kv hkv
    exact h kv (List.mem_of_mem_filter hkv)
  | MESSAGES_UPDATED_STATUS chatId messageIds status =>
    have hs : status = MessageStatus.read := by
      simpa [dispatchedShape] using ha
    subst hs
    simp only [reducer]
    cases hlk : lookupA st.messages chatId with
    | none => exact h
    | some bucket =>
      refine noFailedBuckets_map_bucket st.messages chatId bucket _ ?_ h hlk
      intro x _ hx
      cases hm : matchesIds messageIds x <;> simp [hm, hx]

theorem noFailed_applyActions (acts : List SocketAction) :
    ∀ st : SocketState, noFailedBuckets st.messages →
    (∀ a ∈ acts, dispatchedShape a = true) →
    noFailedBuckets (applyActions st acts).messages := by
  induction acts with
  | nil => intro st h _; exact h
  | cons a rest ih =>
    intro st h ha
    exact ih (reducer st a)
      (noFailed_reducer st a h (ha a (by simp)))
      (fun b hb => ha b (List.mem_cons_of_mem _ hb))

-- ── C8: the failed branch ───────────────────────────────────────────────

/-- Counterexample to C8 as stated: under an arbitrary sequence of
reducer transitions, status failed is reachable from delivered, not only
from sending — a MESSAGES_UPDATED_STATUS action carrying status failed
moves a delivered message straight to failed.  (Moreover no reducer
transition the client code dispatches ever assigns failed at all: a send
attempted with a closed transport is silently discarded, per C10, and
server error frames set the global error field.) -/
theorem failed_from_delivered_c8_counterexample :
    statusOf (applyActions initialState
      [.MESSAGE_ADDED
        { localId := "x", serverId := none, chatId := "c",
          senderUsername := "bob", receiverUsername := "alice",
          text := "t", timestamp := 1, status := .delivered }]) "c" "x"
      = some .delivered
    ∧ statusOf (applyActions initialState
      [.MESSAGE_ADDED
        { localId := "x", serverId := none, chatId := "c",
          senderUsername := "bob", receiverUsername := "alice",
          text := "t", timestamp := 1, status := .delivered },
       .MESSAGES_UPDATED_STATUS "c" ["x"] .failed]) "c" "x"
      = some .failed := by
  constructor
  · decide
  · decide

/-- C8 amended: restricted to the action payload shapes the client code
actually dispatches (dispatchedShape), no message in any snapshot
reachable from the initial state ever carries status failed: the failed
branch declared in MessageStatus is never entered, so in particular it
is never entered from a status other than sending, and no send failure
is surfaced as a failed message. -/
theorem no_failed_status_c8_amended (acts : List SocketAction)
    (ha : ∀ a ∈ acts, dispatchedShape a = true) :
    ∀ kv ∈ (applyActions initialState acts).messages, ∀ m ∈ kv.2,
      m.status ≠ MessageStatus.failed :=
  noFailed_applyActions acts initialState
    (by intro kv hkv; simp [initialState] at hkv) ha

/-- Witness for the amended C8: after an optimistic send, its server
acknowledgment and a read confirmation, the resulting message is not in
status failed. -/
theorem no_failed_status_c8_amended_witness :
    ({ localId := "u1", serverId := some "srv1", chatId := "c",
       senderUsername := "alice", receiverUsername := "bob",
       text := "hi", timestamp := 9,
       status := MessageStatus.read } : ChatMessage).status
      ≠ MessageStatus.failed :=
  no_failed_status_c8_amended
    [.MESSAGE_ADDED
      { localId := "u1", serverId := none, chatId := "c",
        senderUsername := "alice", receiverUsername := "bob",
        text := "hi", timestamp := 5, status := .sending },
     .MESSAGE_UPDATED "u1"
      { id := "srv1", chatId := "c", fromUser := "alice",
        toUser := "bob", text := "hi", timestamp := 9 },
     .MESSAGES_UPDATED_STATUS "c" ["srv1"] .read]
    (by decide)
    ("c", [{ localId := "u1", serverId := some "srv1", chatId := "c",
             senderUsername := "alice", receiverUsername := "bob",
             text := "hi", timestamp := 9, status := MessageStatus.read }])
    (by decide)
    { localId := "u1", serverId := some "srv1", chatId := "c",
      senderUsername := "alice", receiverUsername := "bob",
      text := "hi", timestamp := 9, status := MessageStatus.read }
    (by decide)

-- ── Tracked-message lookup lemmas ───────────────────────────────────────

theorem statusProgress_refl (o : Option MessageStatus) :
    statusProgress o o = true := by
  simp [statusProgress]

theorem find?_eq_of_nodup_mem (l : String) :
    ∀ (b : List ChatMessage) (m : ChatMessage),
    (b.map (fun x => x.localId)).Nodup → m ∈ b → m.localId = l →
    b.find? (fun x => decide (x.localId = l)) = some m := by
  intro b
  induction b with
  | nil => intro m _ hm _; simp at hm
  | cons x xs ih =>
    intro m hnd hm hml
    rw [List.map_cons, List.nodup_cons] at hnd
    obtain ⟨hx, hxs⟩ := hnd
    by_cases hxl : x.localId = l
    · rw [List.find?_cons_of_pos _ (by simp [hxl])]
      rcases List.mem_cons.mp hm with hm | hm
      · subst hm; rfl
      · exfalso
        exact hx (List.mem_map.mpr ⟨m, hm, by rw [hml, hxl]⟩)
    · rw [List.find?_cons_of_neg _ (by simp [hxl])]
      rcases List.mem_cons.mp hm with hm | hm
      · subst hm; exact absurd hml hxl
      · exact ih m hxs hm hml

theorem find?_perm_of_nodup (l : String) (b b2 : List ChatMessage)
    (hperm : List.Perm b2 b)
    (hnd : (b.map (fun x => x.localId)).Nodup) :
    b2.find? (fun x => decide (x.localId = l))
      = b.find? (fun x => decide (x.localId = l)) := by
  cases hf : b.find? (fun x => decide (x.localId = l)) with
  | some m =>
    have hm : m ∈ b := List.mem_of_find?_eq_some hf
    have hml : m.localId = l := by simpa using List.find?_some hf
    have hnd2 : (b2.map (fun x => x.localId)).Nodup :=
      ((hperm.map _).nodup_iff).mpr hnd
    exact find?_eq_of_nodup_mem l b2 m hnd2 (hperm.mem_iff.mpr hm) hml
  | none =>
    rw [List.find?_eq_none] at hf ⊢
    intro x hx
    exact hf x (hperm.mem_iff.mp hx)

theorem bucket_addIfAbsent_origin (p : ChatMessage)
    (acc : List (String × List ChatMessage)) (cid : String) :
    ∀ x ∈ (lookupA (addIfAbsent acc p) cid).getD [],
      x ∈ (lookupA acc cid).getD [] ∨ x = p := by
  unfold addIfAbsent
  cases hc : hasLocalId ((lookupA acc p.chatId).getD []) p.localId
  · simp only [hc, Bool.false_eq_true, if_false]
    intro x hx
    by_cases hk : cid = p.chatId
    · subst hk
      rw [lookupA_setA_self, Option.getD_some] at hx
      rcases List.mem_append.mp hx with hx | hx
      · left; exact hx
      · right; simpa using hx
    · rw [lookupA_setA_ne p.chatId cid _ hk] at hx
      left; exact hx
  · simp only [hc, if_true]
    intro x hx
    left; exact hx

theorem bucket_foldl_origin (payload : List ChatMessage) :
    ∀ (acc : List (String × List ChatMessage)) (cid : String),
    ∀ x ∈ (lookupA (payload.foldl addIfAbsent acc) cid).getD [],
      x ∈ (lookupA acc cid).getD [] ∨ x ∈ payload := by
  induction payload with
  | nil => intro acc cid x hx; left; exact hx
  | cons q qs ih =>
    intro acc cid x hx
    rcases ih (addIfAbsent acc q) cid x hx with h2 | h2
    · rcases bucket_addIfAbsent_origin q acc cid x h2 with h3 | h3
      · left; exact h3
      · right; rw [h3]; simp
    · right; exact List.mem_cons_of_mem _ h2

theorem bucket_addIfAbsent_mono (p : ChatMessage)
    (acc : List (String × List ChatMessage)) (cid : String) :
    ∀ x ∈ (lookupA acc cid).getD [],
      x ∈ (lookupA (addIfAbsent acc p) cid).getD [] := by
  unfold addIfAbsent
  cases hc : hasLocalId ((lookupA acc p.chatId).getD []) p.localId
  · simp only [hc, Bool.false_eq_true, if_false]
    intro x hx
    by_cases hk : cid = p.chatId
    · subst hk
      rw [lookupA_setA_self, Option.getD_some]
      exact List.mem_append_left _ hx
    · rw [lookupA_setA_ne p.chatId cid _ hk]
      exact hx
  · simp only [hc, if_true]
    intro x hx
    exact hx

theorem bucket_foldl_mono (payload : List ChatMessage) :
    ∀ (acc : List (String × List ChatMessage)) (cid : String),
    ∀ x ∈ (lookupA acc cid).getD [],
      x ∈ (lookupA (payload.foldl addIfAbsent acc) cid).getD [] := by
  induction payload with
  | nil => intro acc cid x hx; exact hx
  | cons q qs ih =>
    intro acc cid x hx
    exact ih (addIfAbsent acc q) cid x (bucket_addIfAbsent_mono q acc cid x hx)

theorem find_after_bulk (m : List (String × List ChatMessage))
    (payload : List ChatMessage) (cid l : String) (hnd : nodupBuckets m) :
    ((lookupA (mapValsA sortBucket (payload.foldl addIfAbsent m)) cid).getD
        []).find? (fun x => decide (x.localId = l))
      = ((lookupA m cid).getD []).find? (fun x => decide (x.localId = l))
    ∨ (((lookupA m cid).getD []).find? (fun x => decide (x.localId = l)) = none
       ∧ ∃ p ∈ payload,
          ((lookupA (mapValsA sortBucket (payload.foldl addIfAbsent m))
              cid).getD []).find? (fun x => decide (x.localId = l)) = some p
          ∧ p.localId = l) := by
  have hndX : nodupBuckets (payload.foldl addIfAbsent m) :=
    nodupBuckets_foldl_addIfAbsent payload m hnd
  have hb2 : (lookupA (mapValsA sortBucket (payload.foldl addIfAbsent m))
      cid).getD [] = sortBucket ((lookupA (payload.foldl addIfAbsent m) cid).getD []) := by
    rw [lookupA_mapValsA]
    cases hlk : lookupA (payload.foldl addIfAbsent m) cid
    · rfl
    · rfl
  have hnd0 : (((lookupA (payload.foldl addIfAbsent m) cid).getD []).map
      (fun x => x.localId)).Nodup :=
    bucket_nodup_of_nodupBuckets hndX cid
  have hfind : (sortBucket ((lookupA (payload.foldl addIfAbsent m) cid).getD
        [])).find? (fun x => decide (x.localId = l))
      = ((lookupA (payload.foldl addIfAbsent m) cid).getD []).find?
        (fun x => decide (x.localId = l)) :=
    find?_perm_of_nodup l _ _ (sortBucket_perm _) hnd0
  rw [hb2, hfind]
  cases horig : ((lookupA m cid).getD []).find? (fun x => decide (x.localId = l)) with
  | some mm =>
    left
    have hmem : mm ∈ (lookupA m cid).getD [] := List.mem_of_find?_eq_some horig
    have hml : mm.localId = l := by simpa using List.find?_some horig
    exact find?_eq_of_nodup_mem l _ mm hnd0
      (bucket_foldl_mono payload m cid mm hmem) hml
  | none =>
    cases hb0 : ((lookupA (payload.foldl addIfAbsent m) cid).getD []).find?
        (fun x => decide (x.localId = l)) with
    | none => left; rfl
    | some p =>
      right
      refine ⟨rfl, p, ?_, rfl, by simpa using List.find?_some hb0⟩
      have hpmem : p ∈ (lookupA (payload.foldl addIfAbsent m) cid).getD [] :=
        List.mem_of_find?_eq_some hb0
      rcases bucket_foldl_origin payload m cid p hpmem with h2 | h2
      · exfalso
        rw [List.find?_eq_none] at horig
        exact horig p h2 (by simpa using List.find?_some hb0)
      · exact h2

theorem getByLocal_map_bucket (st : SocketState) (cid2 : String)
    (bucket : List ChatMessage) (f : ChatMessage → ChatMessage)
    (hf : ∀ x, (f x).localId = x.localId)
    (hlk : lookupA st.messages cid2 = some bucket) (cid l : String) :
    getByLocal { st with messages := setA st.messages cid2 (bucket.map f) } cid l
      = if cid = cid2 then (getByLocal st cid l).map f else getByLocal st cid l := by
  by_cases h : cid = cid2
  · subst h
    rw [if_pos rfl]
    simp only [getByLocal, getBucket, lookupA_setA_self, Option.getD_some, hlk]
    exact find?_localId_map f hf l bucket
  · rw [if_neg h]
    simp only [getByLocal, getBucket]
    rw [lookupA_setA_ne cid2 cid _ h]

-- ── C3 per-action step lemmas ───────────────────────────────────────────

theorem c3_unchanged (me cid l : String) (st st2 : SocketState)
    (hself : selfInvB me cid l st = true)
    (hsame : getByLocal st2 cid l = getByLocal st cid l) :
    statusProgress (statusOf st cid l) (statusOf st2 cid l) = true
    ∧ selfInvB me cid l st2 = true := by
  constructor
  · simp only [statusOf, hsame]
    exact statusProgress_refl _
  · have h2 : selfInvB me cid l st2 = selfInvB me cid l st := by
      simp only [selfInvB, hsame]
    rw [h2]
    exact hself

theorem c3_map_fix (me cid l : String) (st : SocketState) (cid2 : String)
    (bucket : List ChatMessage) (f : ChatMessage → ChatMessage)
    (hf : ∀ x, (f x).localId = x.localId)
    (hlk : lookupA st.messages cid2 = some bucket)
    (hfix : cid = cid2 → ∀ m, getByLocal st cid l = some m → f m = m)
    (hself : selfInvB me cid l st = true) :
    statusProgress (statusOf st cid l)
      (statusOf { st with messages := setA st.messages cid2 (bucket.map f) }
        cid l) = true
    ∧ selfInvB me cid l
        { st with messages := setA st.messages cid2 (bucket.map f) } = true := by
  apply c3_unchanged me cid l st _ hself
  rw [getByLocal_map_bucket st cid2 bucket f hf hlk cid l]
  by_cases h : cid = cid2
  · rw [if_pos h]
    cases hg : getByLocal st cid l with
    | none => rfl
    | some m => simp [hfix h m hg]
  · rw [if_neg h]

theorem c3_message_updated (me cid l : String) (st : SocketState)
    (lid : String) (wm : WireMessage)
    (hself : selfInvB me cid l st = true) :
    statusProgress (statusOf st cid l)
      (statusOf (reducer st (.MESSAGE_UPDATED lid wm)) cid l) = true
    ∧ selfInvB me cid l (reducer st (.MESSAGE_UPDATED lid wm)) = true := by
  cases hlk : lookupA st.messages wm.chatId with
  | none =>
    have hid : reducer st (.MESSAGE_UPDATED lid wm) = st := by
      simp only [reducer, hlk]
    rw [hid]
    exact ⟨statusProgress_refl _, hself⟩
  | some bucket =>
    have hred : reducer st (.MESSAGE_UPDATED lid wm)
        = { st with
            messages := setA st.messages wm.chatId (bucket.map (fun m =>
                if m.localId = lid then { m with serverId := some wm.id, status := MessageStatus.sent, timestamp := wm.timestamp } else m)) } := by
      simp only [reducer, hlk]
    rw [hred]
    have hb := getByLocal_map_bucket st wm.chatId bucket
      (fun m => if m.localId = lid then { m with serverId := some wm.id, status := MessageStatus.sent, timestamp := wm.timestamp } else m)
      (fun x => by by_cases hx : x.localId = lid <;> simp [hx]) hlk cid l
    by_cases h : cid = wm.chatId
    · rw [if_pos h] at hb
      cases hg : getByLocal st cid l with
      | none =>
        rw [hg] at hb
        constructor
        · simp only [statusOf, hg, hb]
          simp [statusProgress]
        · simp [selfInvB, hb]
      | some m =>
        rw [hg] at hb
        have hsm := hself
        simp only [selfInvB, hg, Bool.and_eq_true, Bool.or_eq_true,
          decide_eq_true_eq] at hsm
        by_cases hml : m.localId = lid
        · constructor
          · simp only [statusOf, hg, hb]
            rcases hsm.2 with h2 | h2 <;> simp [statusProgress, hml, h2]
          · simp only [selfInvB, hb]
            simp [hml, hsm.1]
        · refine c3_unchanged me cid l st _ hself ?_
          rw [hb, hg]
          simp [hml]
    · rw [if_neg h] at hb
      exact c3_unchanged me cid l st _ hself hb

theorem c3_message_added (me cid l : String) (st : SocketState)
    (p : ChatMessage)
    (hself : selfInvB me cid l st = true)
    (hstat : (!(decide (p.localId = l))
        || (decide (p.senderUsername = me)
            && decide (p.status = MessageStatus.sending))) = true) :
    statusProgress (statusOf st cid l)
      (statusOf (reducer st (.MESSAGE_ADDED p)) cid l) = true
    ∧ selfInvB me cid l (reducer st (.MESSAGE_ADDED p)) = true := by
  cases hc : hasLocalId ((lookupA st.messages p.chatId).getD []) p.localId with
  | true =>
    have hid : reducer st (.MESSAGE_ADDED p) = st := by
      simp only [reducer, hc, if_true]
    rw [hid]
    exact ⟨statusProgress_refl _, hself⟩
  | false =>
    have hred : reducer st (.MESSAGE_ADDED p)
        = { st with
            messages := setA st.messages p.chatId
                (((lookupA st.messages p.chatId).getD []) ++ [p]) } := by
      simp only [reducer, hc, Bool.false_eq_true, if_false]
    rw [hred]
    by_cases h : cid = p.chatId
    · subst h
      have hb : getByLocal
            { st with
              messages := setA st.messages p.chatId
                  (((lookupA st.messages p.chatId).getD []) ++ [p]) } p.chatId l
          = (getByLocal st p.chatId l).or
              ([p].find? (fun x => decide (x.localId = l))) := by
        simp only [getByLocal, getBucket, lookupA_setA_self, Option.getD_some]
        rw [List.find?_append]
      cases hg : getByLocal st p.chatId l with
      | some m =>
        rw [hg] at hb
        exact c3_unchanged me p.chatId l st _ hself (by rw [hb, hg]; rfl)
      | none =>
        rw [hg] at hb
        by_cases hpl : p.localId = l
        · have hpf : p.senderUsername = me ∧ p.status = MessageStatus.sending := by
            simpa [hpl, Bool.and_eq_true, decide_eq_true_eq] using hstat
          have hb2 : getByLocal
              { st with
                messages := setA st.messages p.chatId
                    (((lookupA st.messages p.chatId).getD []) ++ [p]) } p.chatId l
              = some p := by
            rw [hb]
            simp [hpl]
          constructor
          · simp only [statusOf, hg, hb2]
            simp [statusProgress, hpf.2]
          · simp only [selfInvB, hb2]
            simp [hpf.1, hpf.2]
        · have hb2 : getByLocal
              { st with
                messages := setA st.messages p.chatId
                    (((lookupA st.messages p.chatId).getD []) ++ [p]) } p.chatId l
              = none := by
            rw [hb]
            simp [hpl]
          exact c3_unchanged me p.chatId l st _ hself (by rw [hb2, hg])
    · have hb : getByLocal
          { st with
            messages := setA st.messages p.chatId
                (((lookupA st.messages p.chatId).getD []) ++ [p]) } cid l
          = getByLocal st cid l := by
        simp only [getByLocal, getBucket]
        rw [lookupA_setA_ne p.chatId cid _ h]
      exact c3_unchanged me cid l st _ hself hb

theorem c3_clear (me cid l : String) (st : SocketState) (cid2 : String)
    (hself : selfInvB me cid l st = true) :
    statusProgress (statusOf st cid l)
      (statusOf (reducer st (.CLEAR_CHAT cid2)) cid l) = true
    ∧ selfInvB me cid l (reducer st (.CLEAR_CHAT cid2)) = true := by
  have hb : getByLocal (reducer st (.CLEAR_CHAT cid2)) cid l
      = if cid = cid2 then none else getByLocal st cid l := by
    simp only [getByLocal, getBucket, reducer]
    rw [lookupA_eraseA]
    by_cases h : cid = cid2
    · simp [h]
    · simp [h]
  by_cases h : cid = cid2
  · rw [if_pos h] at hb
    constructor
    · simp only [statusOf, hb]
      simp [statusProgress]
    · simp [selfInvB, hb]
  · rw [if_neg h] at hb
    exact c3_unchanged me cid l st _ hself hb

theorem c3_bulk (me cid l : String) (st : SocketState)
    (payload : List ChatMessage)
    (hnodup : nodupBuckets st.messages)
    (hself : selfInvB me cid l st = true)
    (hpay : payload.all (fun m => !(decide (m.localId = l))
        || (decide (m.senderUsername = me)
            && (decide (m.status = MessageStatus.sending)
                || decide (m.status = MessageStatus.sent)))) = true)
    (st2 : SocketState)
    (hst2 : getByLocal st2 cid l
        = ((lookupA (mapValsA sortBucket (payload.foldl addIfAbsent
            st.messages)) cid).getD []).find?
            (fun x => decide (x.localId = l))) :
    statusProgress (statusOf st cid l) (statusOf st2 cid l) = true
    ∧ selfInvB me cid l st2 = true := by
  rcases find_after_bulk st.messages payload cid l hnodup with heq | hex
  · exact c3_unchanged me cid l st st2 hself (by rw [hst2, heq]; rfl)
  · obtain ⟨hnone, p, hp, heq, hpl⟩ := hex
    have hg1 : getByLocal st cid l = none := hnone
    have hg2 : getByLocal st2 cid l = some p := by rw [hst2]; exact heq
    rw [List.all_eq_true] at hpay
    have h3 := hpay p hp
    simp [hpl] at h3
    constructor
    · simp only [statusOf, hg1, hg2]
      rcases h3.2 with h2 | h2 <;> simp [statusProgress, h2]
    · simp only [selfInvB, hg2]
      rcases h3.2 with h2 | h2 <;> simp [h3.1, h2]

theorem c3_step (me cid l : String) (st : SocketState) (a : SocketAction)
    (hnodup : nodupBuckets st.messages)
    (hself : selfInvB me cid l st = true)
    (hstat : normalFlowStatic me l a = true)
    (hrc : readConfFor st cid l a = false) :
    statusProgress (statusOf st cid l) (statusOf (reducer st a) cid l) = true
    ∧ selfInvB me cid l (reducer st a) = true := by
  cases a with
  | DB_HYDRATED payload =>
    exact c3_bulk me cid l st payload hnodup hself
      (by simpa [normalFlowStatic] using hstat) _ rfl
  | CONNECTING => exact c3_unchanged me cid l st _ hself rfl
  | CONNECTED => exact c3_unchanged me cid l st _ hself rfl
  | RECONNECTING => exact c3_unchanged me cid l st _ hself rfl
  | DISCONNECTED => exact c3_unchanged me cid l st _ hself rfl
  | AUTH_FAILED payload => exact c3_unchanged me cid l st _ hself rfl
  | ERROR payload => exact c3_unchanged me cid l st _ hself rfl
  | MESSAGE_UPDATED lid wm => exact c3_message_updated me cid l st lid wm hself
  | MESSAGE_ADDED p =>
    exact c3_message_added me cid l st p hself
      (by simpa [normalFlowStatic] using hstat)
  | MESSAGES_BULK_ADD payload =>
    exact c3_bulk me cid l st payload hnodup hself
      (by simpa [normalFlowStatic] using hstat) _ rfl
  | MESSAGES_MARKED_READ cid2 readerUsername =>
    have hme : readerUsername = me := by
      simpa [normalFlowStatic] using hstat
    subst hme
    cases hlk : lookupA st.messages cid2 with
    | none =>
      have hid : reducer st (.MESSAGES_MARKED_READ cid2 readerUsername) = st := by
        simp only [reducer, hlk]
      rw [hid]
      exact ⟨statusProgress_refl _, hself⟩
    | some bucket =>
      have hred : reducer st (.MESSAGES_MARKED_READ cid2 readerUsername)
          = { st with
              messages := setA st.messages cid2 (bucket.map (fun m =>
                  if m.senderUsername ≠ readerUsername ∧ m.status ≠ MessageStatus.read then { m with status := MessageStatus.read } else m)) } := by
        simp only [reducer, hlk]
      rw [hred]
      refine c3_map_fix readerUsername cid l st cid2 bucket
        (fun m => if m.senderUsername ≠ readerUsername ∧ m.status ≠ MessageStatus.read then { m with status := MessageStatus.read } else m)
        (fun x => by
          by_cases hx : x.senderUsername ≠ readerUsername
              ∧ x.status ≠ MessageStatus.read <;> simp [hx])
        hlk ?_ hself
      intro _ m hg
      have hsm := hself
      simp only [selfInvB, hg, Bool.and_eq_true, decide_eq_true_eq] at hsm
      simp [hsm.1]
  | MESSAGES_READ_BY_PEER cid2 messageIds =>
    cases hlk : lookupA st.messages cid2 with
    | none =>
      have hid : reducer st (.MESSAGES_READ_BY_PEER cid2 messageIds) = st := by
        simp only [reducer, hlk]
      rw [hid]
      exact ⟨statusProgress_refl _, hself⟩
    | some bucket =>
      have hred : reducer st (.MESSAGES_READ_BY_PEER cid2 messageIds)
          = { st with
              messages := setA st.messages cid2 (bucket.map (fun m =>
                  if m.localId ∈ messageIds then { m with status := MessageStatus.read } else m)) } := by
        simp only [reducer, hlk]
      rw [hred]
      refine c3_map_fix me cid l st cid2 bucket
        (fun m => if m.localId ∈ messageIds then { m with status := MessageStatus.read } else m)
        (fun x => by by_cases hx : x.localId ∈ messageIds <;> simp [hx])
        hlk ?_ hself
      intro hcc m hg
      have hnotin : l ∉ messageIds := by
        intro hin
        have htrue : readConfFor st cid l
            (.MESSAGES_READ_BY_PEER cid2 messageIds) = true := by
          simp [readConfFor, hcc, hin]
        rw [hrc] at htrue
        cases htrue
      have hml : m.localId = l := by
        simpa using List.find?_some hg
      simp [hml, hnotin]
  | TYPING_UPDATE peerUsername isTyping =>
    exact c3_unchanged me cid l st _ hself rfl
  | PEER_STATUS username status => exact c3_unchanged me cid l st _ hself rfl
  | CLEAR_CHAT cid2 => exact c3_clear me cid l st cid2 hself
  | MESSAGES_UPDATED_STATUS cid2 messageIds status =>
    cases hlk : lookupA st.messages cid2 with
    | none =>
      have hid : reducer st (.MESSAGES_UPDATED_STATUS cid2 messageIds status)
          = st := by
        simp only [reducer, hlk]
      rw [hid]
      exact ⟨statusProgress_refl _, hself⟩
    | some bucket =>
      have hred : reducer st (.MESSAGES_UPDATED_STATUS cid2 messageIds status)
          = { st with
              messages := setA st.messages cid2 (bucket.map (fun m =>
                  if matchesIds messageIds m then { m with status := status } else m)) } := by
        simp only [reducer, hlk]
      rw [hred]
      refine c3_map_fix me cid l st cid2 bucket
        (fun m => if matchesIds messageIds m then { m with status := status } else m)
        (fun x => by cases hx : matchesIds messageIds x <;> simp [hx])
        hlk ?_ hself
      intro hcc m hg
      have hmf : matchesIds messageIds m = false := by
        simp only [readConfFor] at hrc
        rw [Bool.and_eq_false_iff] at hrc
        rcases hrc with h4 | h4
        · exact absurd (by simp [hcc.symm] : decide (cid2 = cid) = true)
            (by simp [h4])
        · rw [hg] at h4
          exact h4
      simp [hmf]

-- ── C3: status monotonicity under normal flow ───────────────────────────

/-- C3: take a self-authored message tracked by its conversation key and
localId, in a snapshot whose buckets have pairwise-distinct localIds and
in which the tracked message is absent or self-authored at status
sending or sent (as the optimistic send creates it).  Over every
sequence of reducer transitions whose payloads have the shapes the
client code dispatches and that contains no read-confirmation event
matching the tracked message (flowOK), the tracked message's status only
ever progresses — each step leaves it unchanged, removes it with its
conversation, re-introduces it at sending or sent, or advances it from
sending to sent — and it never regresses; the invariant that it stays
self-authored at sending or sent is preserved throughout (self messages
never pass through delivered, and only a matching read confirmation,
excluded here, can move them to read). -/
theorem status_monotone_c3 (me cid l : String) (acts : List SocketAction) :
    ∀ st : SocketState, nodupBuckets st.messages →
    selfInvB me cid l st = true →
    flowOK me cid l st acts = true →
    progressAll cid l st acts = true
    ∧ selfInvB me cid l (applyActions st acts) = true := by
  induction acts with
  | nil => intro st _ hself _; exact ⟨rfl, hself⟩
  | cons a rest ih =>
    intro st hnd hself hflow
    simp only [flowOK, Bool.and_eq_true, Bool.not_eq_true'] at hflow
    obtain ⟨⟨hstat, hrc⟩, hrest⟩ := hflow
    have hstep := c3_step me cid l st a hnd hself hstat hrc
    have hrest2 := ih (reducer st a) (nodupBuckets_reducer st a hnd)
      hstep.2 hrest
    constructor
    · simp only [progressAll, Bool.and_eq_true]
      exact ⟨hstep.1, hrest2.1⟩
    · exact hrest2.2

/-- Witness for C3: a concrete normal flow — optimistic send, server
acknowledgment, a read confirmation for a different message of the same
conversation, a presence update and a conversation clear — takes only
admissible status steps for the tracked message u1. -/
theorem status_monotone_c3_witness :
    progressAll "dm:alice:bob" "u1" initialState
      [.MESSAGE_ADDED
        { localId := "u1", serverId := none, chatId := "dm:alice:bob",
          senderUsername := "alice", receiverUsername := "bob",
          text := "hi", timestamp := 5, status := .sending },
       .MESSAGE_UPDATED "u1"
        { id := "srv1", chatId := "dm:alice:bob", fromUser := "alice",
          toUser := "bob", text := "hi", timestamp := 9 },
       .MESSAGES_UPDATED_STATUS "dm:alice:bob" ["zz"] .read,
       .PEER_STATUS "bob" .online,
       .CLEAR_CHAT "dm:alice:bob"] = true :=
  (status_monotone_c3 "alice" "dm:alice:bob" "u1"
    [.MESSAGE_ADDED
      { localId := "u1", serverId := none, chatId := "dm:alice:bob",
        senderUsername := "alice", receiverUsername := "bob",
        text := "hi", timestamp := 5, status := .sending },
     .MESSAGE_UPDATED "u1"
      { id := "srv1", chatId := "dm:alice:bob", fromUser := "alice",
        toUser := "bob", text := "hi", timestamp := 9 },
     .MESSAGES_UPDATED_STATUS "dm:alice:bob" ["zz"] .read,
     .PEER_STATUS "bob" .online,
     .CLEAR_CHAT "dm:alice:bob"]
    initialState (by intro kv hkv; simp [initialState] at hkv)
    (by decide) (by decide)).1

end HichiChat
